import Mathlib

/-!
The `bts_xt` client test harness of bitshares_toolkit

A shallow embedding of `tests/bts_xt_client_tests.cpp` (the fleet launcher, the
round-robin transfer scenario, its convergence poll, the output drain loop and
the teardown), of the option handling of `programs/bts_xt/main.cpp` and of the
command dispatch of `libraries/cli/cli.cpp`, with the properties of the
specification stated over them.

Conventions
* wallet amounts are `Int` (the wallet's `asset` amounts are signed 64 bit; none
  of the values used here come near the bounds);
* clock readings and durations are `Int` microseconds (`fc::time_point`);
* `uint16_t` values are `Nat` reduced `% 65536` where the source stores them;
* loops whose exit depends on the environment take a fuel argument and return
  `none` when the fuel runs out before the loop exits.
-/

namespace BtsXtClientTests

/-! ## Constants of the test file -/

/-- The macro `INITIAL_BALANCE`, defined as 100000000 (line 84). -/
def INITIAL_BALANCE : Nat := 100000000

/-- The constant `const uint32_t amount_to_transfer = 1000000;` (line 332). -/
def amount_to_transfer : Int := 1000000

/-- The constant `const uint32_t test_process_count = 10;` (line 246). -/
def test_process_count : Nat := 10

/-- The static `uint16_t bts_xt_client_test_config::base_rpc_port = 20100;`
(line 79). -/
def base_rpc_port : Nat := 20100

/-- The macro `RPC_USERNAME`, defined as `"test"` (line 81). -/
def RPC_USERNAME : String := "test"

/-- The macro `RPC_PASSWORD`, defined as `"test"` (line 82). -/
def RPC_PASSWORD : String := "test"

/-- The macro `WALLET_PASPHRASE`, defined as `"testtest"` (line 83). -/
def WALLET_PASPHRASE : String := "testtest"

/-! ## Round-robin transfers (lines 325-346) -/

/-- Modelled from the spec: the effect of `rpc_client::transfer` on the wallets'
balances. The wallet and ledger are not under `src/`; the spec's conservation
property takes a transfer to be a fee-free debit of the sender followed by a
credit of the recipient. `balances[i]` is the balance of participant `i`. -/
def transfer (balances : List Int) (source destination : Nat) (amount : Int) : List Int :=
  List.modify (fun b => b + amount) destination
    (List.modify (fun b => b - amount) source balances)

/-- The loop `for (int i = 0; i < test_process_count; ++i)` of lines 326-346:
in iteration `i` participant `i` sends `amount` to participant
`next_client_index = (i + 1) % test_process_count`. -/
def roundRobin (count : Nat) (amount : Int) (balances : List Int) : List Int :=
  (List.range count).foldl
    (fun b i =>
      let next_client_index := (i + 1) % count
      transfer b i next_client_index amount)
    balances

/-- The senders of the round-robin loop, in order. -/
def senders (count : Nat) : List Nat := List.range count

/-- The recipients of the round-robin loop, in order. -/
def recipients (count : Nat) : List Nat := (List.range count).map (fun i => (i + 1) % count)


/-! ## The convergence poll (lines 334-345) -/

/-- What the environment answers to the polling loop. Index `k` is the loop
iteration, counted from 0. -/
structure PollEnv where
  /-- Result of `client_processes[next_client_index].rpc_client->getbalance(0)`
  in iteration `k` (line 338). -/
  getbalance : Nat → Int
  /-- Clock value at the instant that `getbalance(0)` is evaluated in iteration
  `k`. The code never reads it; it only places the evaluation in time. -/
  evaluated_at : Nat → Int
  /-- Value of `fc::time_point::now()` read in iteration `k` (line 343), which
  happens only after the comparison of line 338 was false. -/
  now : Nat → Int

/-- The clock is monotonic and each `fc::usleep(fc::milliseconds(500))` advances
it by at least 500 ms: the first evaluation comes a sleep after `transfer_time`,
each reading of `now()` is not before the evaluation of the same iteration, and
the next evaluation comes a sleep after that reading. -/
def PollEnv.WellTimed (env : PollEnv) (transfer_time : Int) : Prop :=
  transfer_time + 500000 ≤ env.evaluated_at 0 ∧
  ∀ k, env.evaluated_at k ≤ env.now k ∧ env.now k + 500000 ≤ env.evaluated_at (k + 1)

/-- The observable steps of the polling loop. -/
inductive PollEvent where
  /-- A call of `fc::usleep` for the given number of microseconds (line 337). -/
  | usleep (microseconds : Int)
  /-- A call of `getbalance(0)` that returned the given amount (line 338). -/
  | getbalance (result : Int)
  /-- A call of `fc::time_point::now()` that returned the given reading
  (line 343). -/
  | now (reading : Int)
  deriving DecidableEq

/-- How the polling loop ends: `break` at line 341, or `BOOST_FAIL` at line 344
(which throws and ends the test case). -/
inductive PollOutcome where
  | received
  | failed
  deriving DecidableEq

/-- A finished run of the polling loop. -/
structure PollRun where
  outcome : PollOutcome
  trace : List PollEvent
  deriving DecidableEq

/-- The interval `fc::milliseconds(500)` in microseconds (line 337). -/
def poll_interval : Int := 500000

/-- The timeout `fc::seconds(35)` in microseconds (line 343). -/
def poll_timeout : Int := 35000000

/-- The loop `for (;;)` of lines 335-345, entered at iteration `k`, with
`target = destination_initial_balance + amount_to_transfer`. Each iteration
first sleeps 500 ms (line 337, the `usleep` event that opens its part of the
trace) and then compares the balance with the target (line 338): if they are
equal, `break`; otherwise, if `now() > transfer_time + 35 s` (line 343),
`BOOST_FAIL`; otherwise go round again. -/
def pollLoop (env : PollEnv) (transfer_time target : Int) : Nat → Nat → Option PollRun
  | 0, _ => none
  | fuel + 1, k =>
    let balance := env.getbalance k
    if balance = target then
      some ⟨.received, [.usleep poll_interval, .getbalance balance]⟩
    else
      let reading := env.now k
      if reading > transfer_time + poll_timeout then
        some ⟨.failed, [.usleep poll_interval, .getbalance balance, .now reading]⟩
      else
        (pollLoop env transfer_time target fuel (k + 1)).map fun run =>
          ⟨run.outcome,
            .usleep poll_interval :: .getbalance balance :: .now reading :: run.trace⟩

/-- The polling part of one round-robin iteration (lines 330-345):
`destination_initial_balance` is read before the transfer, `transfer_time`
right after it, and the loop waits for the balance to become
`destination_initial_balance + amount_to_transfer`. -/
def awaitTransfer (env : PollEnv) (transfer_time destination_initial_balance : Int)
    (fuel : Nat) : Option PollRun :=
  pollLoop env transfer_time (destination_initial_balance + amount_to_transfer) fuel 0

/-- Number of `fc::usleep` calls in a trace. -/
def sleeps : List PollEvent → Nat
  | [] => 0
  | .usleep _ :: rest => sleeps rest + 1
  | _ :: rest => sleeps rest

/-- Number of evaluations of the balance comparison in a trace. -/
def evaluations : List PollEvent → Nat
  | [] => 0
  | .getbalance _ :: rest => evaluations rest + 1
  | _ :: rest => evaluations rest

/-- Every sleep in the trace lasts one interval and is directly followed by an
evaluation, and every evaluation directly follows such a sleep. -/
def sleepThenEvaluate : List PollEvent → Bool
  | [] => true
  | .usleep d :: .getbalance _ :: rest => decide (d = poll_interval) && sleepThenEvaluate rest
  | .now _ :: rest => sleepThenEvaluate rest
  | _ => false

/-- An environment with exact 500 ms sleeps and instantaneous calls, in which
the transfer issued at time 0 reaches the destination between 35.0 s and
35.5 s: evaluation `k` is made at `500 ms * (k + 1)`, the clock is read at the
same instant, and the balance is the target from evaluation 70 on. -/
def lateArrival : PollEnv where
  getbalance k := if k < 70 then INITIAL_BALANCE else INITIAL_BALANCE + amount_to_transfer
  evaluated_at k := 500000 * (k + 1)
  now k := 500000 * (k + 1)

/-- An environment in which the destination already shows the transferred
amount when the transfer call returns. -/
def alreadyArrived : PollEnv where
  getbalance _ := INITIAL_BALANCE + amount_to_transfer
  evaluated_at k := 500000 * (k + 1)
  now k := 500000 * (k + 1)

/-- An environment with exact 500 ms sleeps and instantaneous calls in which
the destination's balance never changes. -/
def neverArrives : PollEnv where
  getbalance _ := INITIAL_BALANCE
  evaluated_at k := 500000 * (k + 1)
  now k := 500000 * (k + 1)

/-! ## Launching the fleet (lines 115-272) -/

/-- The operations on `fc::ecc::private_key` that the harness uses; they belong
to the `fc` and `bts::blockchain` libraries, not to the test file, and are
taken as given. -/
structure KeyOps (PrivateKey Address : Type) where
  /-- The string `bts::blockchain::address(key.get_public_key())` pushed onto the
  option list (lines 123 and 195). -/
  address : PrivateKey → String
  /-- The string `key.get_secret()` pushed onto the option list (line 199). -/
  get_secret : PrivateKey → String
  /-- The genesis address `bts::blockchain::pts_address(key.get_public_key())`
  (line 256). -/
  pts_address : PrivateKey → Address

/-- The path `directory / name` as a string (`fc::path::operator/` followed by
`.string()`), for a non-empty directory without a trailing separator. -/
def path_append (directory name : String) : String :=
  directory ++ "/" ++ name

/-- What `std::ostream` prints for
`std::setw(3) << std::setfill('0') << process_number` (line 169): the decimal
digits, filled on the left with `'0'` up to a width of 3. -/
def setw3_fill0 (process_number : Nat) : String :=
  String.mk (List.leftpad 3 '0' (Nat.toDigits 10 process_number))

/-- Reading a digit string back as a number, most significant digit first,
starting from the value `acc` of the digits already read. -/
def decimalValue (acc : Nat) : List Char → Nat
  | [] => acc
  | c :: cs => decimalValue (acc * 10 + (c.toNat - 48)) cs

/-- The contents of `numbered_config_dir_name` (lines 168-169). -/
def numbered_config_dir_name (process_number : Nat) : String :=
  "BitSharesX_" ++ setw3_fill0 process_number

/-- The directory name of the trust-delegate process (line 125). -/
def server_config_dir_name : String := "BitSharesX_Server"

/-- The value stored in `client_processes[i].rpc_port` by
`client_processes[i].rpc_port = base_rpc_port + i;` (line 269): the sum is
computed in `int` and converted to `uint16_t`. -/
def rpc_port (i : Nat) : Nat :=
  (base_rpc_port + i) % 65536

/-- The `options` vector built by `launch_bts_server_process` (lines 121-123). -/
def server_options {K A : Type} (ops : KeyOps K A) (trustee_key : K) : List String :=
  ["--trustee-address", ops.address trustee_key]

/-- The `options` vector built by `launch_bts_client_process` (lines 186-200);
`boost::lexical_cast<std::string>(rpc_port)` is the decimal rendering. -/
def client_options {K A : Type} (ops : KeyOps K A) (config_directory : String)
    (process_number rpc_port : Nat) (trustee_key : K) (act_as_trustee : Bool) : List String :=
  let numbered_config_dir :=
    path_append config_directory (numbered_config_dir_name process_number)
  let options :=
    ["--data-dir", numbered_config_dir,
     "--server",
     "--rpcuser=" ++ RPC_USERNAME,
     "--rpcpassword=" ++ RPC_PASSWORD,
     "--rpcport", Nat.repr rpc_port,
     "--trustee-address", ops.address trustee_key]
  if act_as_trustee then
    options ++ ["--trustee-private-key", ops.get_secret trustee_key]
  else options

/-- The option list that `transfer_test` has built for participant `i`
(lines 269-271): `launch_bts_client_process(i, rpc_port, trustee_key, i == 0)`. -/
def participant_options {K A : Type} (ops : KeyOps K A) (config_directory : String)
    (trustee_key : K) (i : Nat) : List String :=
  client_options ops config_directory i (rpc_port i) trustee_key (i == 0)

/-- The loop of lines 253-258 filling `genesis_block.balances`: one `push_back`
of `(pts_address(public key), INITIAL_BALANCE)` per participant, in order. -/
def genesis_balances {K A : Type} (ops : KeyOps K A) (private_key : Nat → K)
    (count : Nat) : List (A × Nat) :=
  (List.range count).foldl
    (fun balances i => balances ++ [(ops.pts_address (private_key i), INITIAL_BALANCE)])
    []

/-- The two output channels of a child process. -/
inductive OutputChannel where
  | out_stream
  | err_stream
  deriving DecidableEq

/-- The two executables of the test configuration (lines 76-77). -/
inductive Executable where
  | bts_server_exe
  | bts_client_exe
  deriving DecidableEq

/-- The things the launch functions do to the outside world, in program order. -/
inductive LaunchEffect where
  /-- A call `fc::remove_all(dir)`. -/
  | remove_all (dir : String)
  /-- A call `fc::create_directories(dir)`. -/
  | create_directories (dir : String)
  /-- A call `fc::json::save_to_file(genesis_block, path, true)` (line 129). -/
  | save_genesis (path : String)
  /-- A call `wallet->create(wallet_file, password, key_password)` for the wallet
  of directory `dir` (line 183). -/
  | create_wallet (dir password key_password : String)
  /-- A call `process->exec(exe, options, working_dir)`. -/
  | exec (exe : Executable) (options : List String) (working_dir : String)
  /-- Opening the log file `stdouterr.txt` as a `std::ofstream` (line 133). -/
  | open_log (path : String)
  /-- A call of `fc::async` with a lambda that drains the given channel of the
  process started last into the log file (lines 136 and 147). -/
  | async_drain (channel : OutputChannel)
  deriving DecidableEq

/-- The effects of `launch_bts_server_process` (lines 115-159): the process is
started and one drain task per output channel is started with `fc::async`. -/
def launch_bts_server_process {K A : Type} (ops : KeyOps K A) (config_directory : String)
    (trustee_key : K) : List LaunchEffect :=
  let server_config_dir := path_append config_directory server_config_dir_name
  [.remove_all server_config_dir,
   .create_directories server_config_dir,
   .save_genesis (path_append server_config_dir "genesis.json"),
   .exec .bts_server_exe (server_options ops trustee_key) server_config_dir,
   .open_log (path_append server_config_dir "stdouterr.txt"),
   .async_drain .out_stream,
   .async_drain .err_stream]

/-- The effects of `launch_bts_client_process` (lines 161-232). The block of
lines 204-230, which would start the two drain tasks, is inside `#if 0` and is
not compiled; the function returns right after `exec`. -/
def launch_bts_client_process {K A : Type} (ops : KeyOps K A) (config_directory : String)
    (process_number rpc_port : Nat) (trustee_key : K) (act_as_trustee : Bool) :
    List LaunchEffect :=
  let numbered_config_dir :=
    path_append config_directory (numbered_config_dir_name process_number)
  [.remove_all numbered_config_dir,
   .create_directories numbered_config_dir,
   .create_wallet numbered_config_dir "" WALLET_PASPHRASE,
   .exec .bts_client_exe
     (client_options ops config_directory process_number rpc_port trustee_key act_as_trustee)
     numbered_config_dir]

/-- The launching part of `transfer_test` (lines 264-272) for a fleet of `count`
participants: the trust-delegate process first, then participants
`0 .. count-1`. -/
def launch_fleet {K A : Type} (ops : KeyOps K A) (config_directory : String)
    (trustee_key : K) (count : Nat) : List LaunchEffect :=
  (List.range count).foldl
    (fun effects i =>
      effects
        ++ launch_bts_client_process ops config_directory i (rpc_port i) trustee_key (i == 0))
    (launch_bts_server_process ops config_directory trustee_key)

/-- Number of drain tasks started (`fc::async` calls) in a list of effects. -/
def drain_tasks_started : List LaunchEffect → Nat
  | [] => 0
  | .async_drain _ :: rest => drain_tasks_started rest + 1
  | _ :: rest => drain_tasks_started rest

/-- A key model for examples: a key is a number, its secret is `"s"` followed
by the number, its address `"a"` followed by the number, its genesis address the
number itself. -/
def exampleKeys : KeyOps Nat Nat where
  address k := "a" ++ Nat.repr k
  get_secret k := "s" ++ Nat.repr k
  pts_address k := k

/-! ## The drain loop (lines 136-146 and 147-157) -/

/-- A finished run of one drain task: the bytes it wrote to the log file, in
order, and the number of `readsome` calls it made. -/
structure DrainRun where
  written : List Nat
  reads : Nat
  deriving DecidableEq

/-- The loop of lines 139-145, entered at its `k`-th `readsome` call (counted
from 0); `readsome k` is what that call puts into `buf`, `bytes_read` being its
length. A zero-length read ends the loop, any other is written to the file. -/
def drainLoop (readsome : Nat → List Nat) : Nat → Nat → Option DrainRun
  | 0, _ => none
  | fuel + 1, k =>
    let buf := readsome k
    let bytes_read := buf.length
    if bytes_read = 0 then
      some ⟨[], k + 1⟩
    else
      (drainLoop readsome fuel (k + 1)).map fun run => ⟨buf ++ run.written, run.reads⟩

/-- A stream for examples: two chunks, then end of data, then (never read)
further bytes. -/
def exampleStream : Nat → List Nat
  | 0 => [104, 105]
  | 1 => [10]
  | 2 => []
  | _ => [33]

/-! ## Teardown (lines 99-113, and the scope exit of `transfer_test`) -/

/-- The state of an `fc::future<void>`: never assigned (`valid()` is false),
assigned and not yet completed, or completed (`ready()` is true). -/
inductive FutureState where
  | invalid
  | pending
  | ready
  deriving DecidableEq

/-- The result of `future.valid()`. -/
def FutureState.valid : FutureState → Bool
  | .invalid => false
  | _ => true

/-- The result of `future.ready()`. -/
def FutureState.is_ready : FutureState → Bool
  | .ready => true
  | _ => false

/-- The two futures of `struct bts_server_process_info` (lines 102-103); the
process handle `server_process` is the trust-delegate's. -/
structure bts_server_process_info where
  stdout_reader_done : FutureState
  stderr_reader_done : FutureState
  deriving DecidableEq

/-- A process of the fleet. -/
inductive FleetProcess where
  | server
  | participant (i : Nat)
  deriving DecidableEq

/-- The steps of tearing the fleet down, in program order. -/
inductive TeardownEvent where
  /-- A call `process->kill()` on the given process. -/
  | kill (process : FleetProcess)
  /-- A call `future.wait()` on the drain task of the given channel, which
  returns once that task has completed. -/
  | wait (channel : OutputChannel)
  /-- The `fc::process_ptr` of the given process going out of scope, with no call
  made on the process by the test file. -/
  | release (process : FleetProcess)
  deriving DecidableEq

/-- What the destructor of `bts_server_process_info` did and how it left the two
futures. -/
structure DestructorRun where
  events : List TeardownEvent
  stdout_reader_done : FutureState
  stderr_reader_done : FutureState
  deriving DecidableEq

/-- The state in which line 109 finds the stderr future: a task that was pending
when the destructor began may have completed by then (`completed_meanwhile`);
an invalid or ready future stays as it was. -/
def stderr_at_line_109 (at_entry : FutureState) (completed_meanwhile : Bool) : FutureState :=
  match at_entry with
  | .pending => if completed_meanwhile then .ready else .pending
  | s => s

/-- The destructor `~bts_server_process_info()` (lines 104-111):
`server_process->kill()`, then for each of the two futures
`if (f.valid() && !f.ready()) f.wait();`. A future that was waited on is ready
afterwards. -/
def bts_server_process_info_destructor (info : bts_server_process_info)
    (completed_meanwhile : Bool) : DestructorRun :=
  let killed : List TeardownEvent := [.kill .server]
  let out := info.stdout_reader_done
  let wait_out := out.valid && !out.is_ready
  let err := stderr_at_line_109 info.stderr_reader_done completed_meanwhile
  let wait_err := err.valid && !err.is_ready
  { events :=
      killed ++ (if wait_out then [.wait .out_stream] else [])
        ++ (if wait_err then [.wait .err_stream] else []),
    stdout_reader_done := if wait_out then .ready else out,
    stderr_reader_done := if wait_err then .ready else err }

/-- The two ways in which the body of `transfer_test` is left after the fleet
has been launched: by reaching its end, or by the exception that `BOOST_FAIL`
(line 344) throws in round-robin iteration `i`. -/
inductive ScenarioExit where
  | completed
  | convergence_failed (i : Nat)
  deriving DecidableEq

/-- What happens when `transfer_test` is left with a fleet of `count`
participants, on either exit path: the locals are destroyed in reverse order of
declaration. `bts_server_process` (line 264), the only owner of the
`bts_server_process_info`, goes first and runs its destructor;
`client_processes` (line 244) goes last, and destroying a `test_client`
(lines 234-240) only lets go of its `fc::process_ptr`. -/
def transfer_test_teardown (count : Nat) (info : bts_server_process_info)
    (completed_meanwhile : Bool) (_exit : ScenarioExit) : List TeardownEvent :=
  (bts_server_process_info_destructor info completed_meanwhile).events
    ++ [.release .server]
    ++ (List.range count).map (fun i => .release (.participant i))

/-- The processes to which a list of teardown steps sends a kill. -/
def killed_processes : List TeardownEvent → List FleetProcess
  | [] => []
  | .kill p :: rest => p :: killed_processes rest
  | _ :: rest => killed_processes rest

/-- The futures of a trust-delegate whose two drain tasks are still running, as
`launch_bts_server_process` leaves them. -/
def launched_server_info : bts_server_process_info :=
  { stdout_reader_done := .pending, stderr_reader_done := .pending }

/-! ## The node program: `programs/bts_xt/main.cpp` -/

/-- The option table `option_config` of `main` (lines 35-46): the long name of
each option and whether it is declared with a `value<...>()`. -/
def option_config : List (String × Bool) :=
  [("data-dir", true),
   ("help", false),
   ("p2p", false),
   ("port", true),
   ("connect-to", true),
   ("server", false),
   ("rpcuser", true),
   ("rpcpassword", true),
   ("rpcport", true),
   ("trustee-private-key", true),
   ("trustee-address", true)]

/-- Whether the option table declares `name`, and if so whether with a value. -/
def declared (name : String) : Option Bool :=
  (option_config.find? (fun entry => entry.1 == name)).map Prod.snd

/-- Reading a token as a long option: a token `--name` gives the name alone, a
token `--name=value` the name and the adjacent value; any other token is not a
long option. -/
def long_option? (token : String) : Option (String × Option String) :=
  match token.data with
  | '-' :: '-' :: rest =>
    let name := rest.takeWhile (fun c => c != '=')
    match rest.dropWhile (fun c => c != '=') with
    | [] => some (String.mk name, none)
    | _ :: value => some (String.mk name, some (String.mk value))
  | _ => none

/-- How the command-line parser that `main` sets up (lines 54-55) takes one
token that is not the value of the option before it. -/
inductive TokenKind where
  /-- A declared option without a value, given without one. -/
  | flag (name : String)
  /-- A declared option with a value, given as `--name=value`. -/
  | valued (name value : String)
  /-- A declared option with a value, given as `--name`: the next token is its
  value. -/
  | awaits_value (name : String)
  /-- A token that is not a long option: the positional `data-dir` (line 49). -/
  | positional (text : String)
  /-- An option that is not declared, or a value given to an option declared
  without one: `boost::program_options::error`. -/
  | rejected
  deriving DecidableEq

/-- The kind of a token, by the option table. -/
def classify (token : String) : TokenKind :=
  match long_option? token with
  | none => .positional token
  | some (name, adjacent) =>
    match declared name, adjacent with
    | none, _ => .rejected
    | some true, some value => .valued name value
    | some true, none => .awaits_value name
    | some false, none => .flag name
    | some false, some _ => .rejected

/-- The long-option part of `boost::program_options::command_line_parser` with
the table and the positional of `main` (lines 54-55), which is library code:
the options it stores, each with its value if it has one, or `none` where the
parser throws (`main` then returns 1, lines 58-63). `pending` is the option that
still awaits its value. -/
def parse_tokens : Option String → List String → Option (List (String × Option String))
  | none, [] => some []
  | some _, [] => none
  | some name, value :: rest =>
    (parse_tokens none rest).map fun parsed => (name, some value) :: parsed
  | none, token :: rest =>
    match classify token with
    | .flag name => (parse_tokens none rest).map fun parsed => (name, none) :: parsed
    | .valued name value =>
      (parse_tokens none rest).map fun parsed => (name, some value) :: parsed
    | .awaits_value name => parse_tokens (some name) rest
    | .positional text =>
      (parse_tokens none rest).map fun parsed => ("data-dir", some text) :: parsed
    | .rejected => none

/-- The options `main` finds on a command line. -/
def parse_command_line (arguments : List String) : Option (List (String × Option String)) :=
  parse_tokens none arguments

/-- The contents of `option_variables` after a successful parse (lines 51-56):
for each option of the table whether it was given, and its value if it takes
one (`uint16_t` values as numbers below 65536). -/
structure variables_map where
  data_dir : Option String
  help : Bool
  p2p : Bool
  port : Option Nat
  connect_to : Option String
  server : Bool
  rpcuser : Option String
  rpcpassword : Option String
  rpcport : Option Nat
  trustee_private_key : Option String
  trustee_address : Option String
  deriving DecidableEq

/-- An `fc::ip::endpoint`: an address and a port. -/
structure endpoint where
  address : String
  port : Nat
  deriving DecidableEq

/-- The fields of `bts::rpc::rpc_server::config` that `main` assigns
(lines 116-121); the type itself is declared outside `src/`. -/
structure rpc_server_config where
  rpc_user : String
  rpc_password : String
  rpc_endpoint : endpoint
  deriving DecidableEq

/-- The record `struct config` of lines 17-22. -/
structure config where
  rpc : rpc_server_config
  ignore_console : Bool
  deriving DecidableEq

/-- What `main` reads besides its command line: the configuration that
`load_config(datadir)` returns (line 78), the contents of the file
`trustee.key` if it exists (lines 100-102), and the library's verdict
`rpc_config.is_valid()` (line 122). -/
structure MainEnvironment where
  cfg : config
  trustee_key_file : Option String
  is_valid : rpc_server_config → Bool

/-- The key that `c->run_trustee(key)` is called with: read from the option
`--trustee-private-key` (lines 95-99) or from the file `trustee.key`
(lines 100-104). -/
inductive TrusteeKey where
  | from_option (text : String)
  | from_file (contents : String)
  deriving DecidableEq

/-- The built-in trusted address of line 85. -/
def default_trustee_address : String := "43cgLS17F2uWJKKFbPoJnnoMSacj"

/-- The call of `chain->set_trustee` that `main` makes: the one of line 83, with
the value of `--trustee-address`, or the one of line 85, with the built-in
address. -/
inductive TrustedAddress where
  | given (value : String)
  | built_in
  deriving DecidableEq

/-- The text from which the trusted address is made. -/
def TrustedAddress.text : TrustedAddress → String
  | .given value => value
  | .built_in => default_trustee_address

/-- What `main` has set up when it reaches `cli->wait()` (line 142). -/
structure NodeSetup where
  /-- The address passed to `chain->set_trustee` (lines 82-85). -/
  trustee : TrustedAddress
  /-- The key of `c->run_trustee`, if it is called (lines 95-104). -/
  run_trustee : Option TrusteeKey
  /-- The configuration of the RPC server, if one is created (lines 122-127). -/
  rpc_server : Option rpc_server_config
  /-- The flag `p2p_mode` (line 71). -/
  p2p_mode : Bool
  deriving DecidableEq

/-- The address that `main` trusts (lines 82-85): the value of
`--trustee-address` if the option is given, else the built-in one. -/
def trusted_address (options : variables_map) : TrustedAddress :=
  match options.trustee_address with
  | some value => .given value
  | none => .built_in

/-- The key with which `main` runs the trustee, if it does (lines 95-104). -/
def run_trustee_key (env : MainEnvironment) (options : variables_map) : Option TrusteeKey :=
  match options.trustee_private_key with
  | some text => some (.from_option text)
  | none =>
    match env.trustee_key_file with
    | some contents => some (.from_file contents)
    | none => none

/-- The local `rpc_config` of lines 114-121: a copy of `cfg.rpc` in which each
option that is given overrides its field; the endpoint is always bound to
`127.0.0.1`. -/
def effective_rpc_config (cfg_rpc : rpc_server_config) (options : variables_map) :
    rpc_server_config :=
  let rpc_config := cfg_rpc
  let rpc_config :=
    match options.rpcuser with
    | some user => { rpc_config with rpc_user := user }
    | none => rpc_config
  let rpc_config :=
    match options.rpcpassword with
    | some password => { rpc_config with rpc_password := password }
    | none => rpc_config
  match options.rpcport with
  | some port => { rpc_config with rpc_endpoint := ⟨"127.0.0.1", port⟩ }
  | none => rpc_config

/-- The RPC server that `main` creates (lines 108-128): none without `--server`,
and none when the effective configuration is not valid. -/
def created_rpc_server (env : MainEnvironment) (options : variables_map) : Option rpc_server_config :=
  if options.server then
    let rpc_config := effective_rpc_config env.cfg.rpc options
    if env.is_valid rpc_config then some rpc_config else none
  else none

/-- The function `main` from a parsed command line up to `cli->wait()`
(lines 65-142), when none of the library calls throws: with `--help` it prints
the options and returns before anything is set up (lines 65-69). -/
def main_setup (env : MainEnvironment) (options : variables_map) : Option NodeSetup :=
  if options.help then none
  else
    some
      { trustee := trusted_address options,
        run_trustee := run_trustee_key env options,
        rpc_server := created_rpc_server env options,
        p2p_mode := options.p2p }

/-- The command line that the harness gives to participant 0 of the test, as
`main` stores it. -/
def exampleOptions : variables_map :=
  { data_dir := some "/tmp/bts_xt_client_tests/BitSharesX_000",
    help := false,
    p2p := false,
    port := none,
    connect_to := none,
    server := true,
    rpcuser := some "test",
    rpcpassword := some "test",
    rpcport := some 20100,
    trustee_private_key := some "s7",
    trustee_address := some "a7" }

/-- An environment for examples: a default configuration file, no `trustee.key`,
and a validity check that asks for a user name and a password. -/
def exampleEnvironment : MainEnvironment :=
  { cfg := { rpc := ⟨"", "", ⟨"0.0.0.0", 0⟩⟩, ignore_console := false },
    trustee_key_file := none,
    is_valid := fun c => c.rpc_user != "" && c.rpc_password != "" }

/-! ## The command line interface: `libraries/cli/cli.cpp` -/

/-- The lines that `cli::print_help` prints between its two rules
(lines 120-131), one per command. -/
def print_help_lines : List String :=
  ["help - print available commands\n",
   "unlock - asks for password to decrypt private keys \n",
   "listrecvaddresses\n",
   "getnewaddress [ACCOUNT] \n",
   "sendtoaddress ADDRESS AMOUNT [MEMO] \n",
   "getbalance [ACCOUNT] [MIN_CONF] \n",
   "listtransactions [COUNT]\n",
   "rescan [BLOCK_NUM=0]\n",
   "import_bitcoin_wallet WALLET_DAT\n",
   "import_private_key    HEX_PRIV_KEY\n",
   "listunspent\n",
   "quit - exit cleanly\n"]

/-- The command that a help line lists: its first word. -/
def listed_command (line : String) : String :=
  String.mk (line.data.takeWhile (fun c => c != ' ' && c != Char.ofNat 10))

/-- The commands that `cli::print_help` lists. -/
def help_commands : List String :=
  print_help_lines.map listed_command

/-- The branches of the `if` / `else if` chain of `cli::process_command`
(lines 164-347), in source order; the last is the final `else`, which prints
`Unknown command` and the help. -/
inductive CommandBranch where
  | help
  | login
  | getnewaddress
  | listunspent
  | sendtoaddress
  | listrecvaddresses
  | import_stub
  | listtransactions
  | rescan
  | export_stub
  | import_bitcoin_wallet
  | import_private_key
  | getbalance
  | quit
  | unknown_command
  deriving DecidableEq

/-- The branch of `cli::process_command` that a command name selects: the
comparisons `cmd == "..."` of lines 164-339 in source order; the arguments play
no part in the choice. -/
def process_command_branch (cmd : String) : CommandBranch :=
  if cmd = "help" then .help
  else if cmd = "login" then .login
  else if cmd = "getnewaddress" then .getnewaddress
  else if cmd = "listunspent" then .listunspent
  else if cmd = "sendtoaddress" then .sendtoaddress
  else if cmd = "listrecvaddresses" then .listrecvaddresses
  else if cmd = "import" then .import_stub
  else if cmd = "listtransactions" then .listtransactions
  else if cmd = "rescan" then .rescan
  else if cmd = "export" then .export_stub
  else if cmd = "import_bitcoin_wallet" then .import_bitcoin_wallet
  else if cmd = "import_private_key" then .import_private_key
  else if cmd = "getbalance" then .getbalance
  else if cmd = "quit" then .quit
  else .unknown_command

/-- The branches that begin with `my->check_unlock()` (lines 247, 262, 307 and
320), the only place where the password that decrypts the private keys is
asked for (line 52). -/
def calls_check_unlock : CommandBranch → Bool
  | .getnewaddress => true
  | .sendtoaddress => true
  | .import_bitcoin_wallet => true
  | .import_private_key => true
  | _ => false

/-- The things `cli` does to the outside world, in program order. -/
inductive CliEffect where
  /-- Text written to `std::cout`. -/
  | print (text : String)
  /-- A call of `get_line` with the given prompt. -/
  | get_line (prompt : String)
  /-- The extraction `std::cin >> response` (line 144) that read the given
  character. -/
  | read_response (response : Char)
  /-- A call `wallet->unlock_wallet(password)` (line 54). -/
  | unlock_wallet (password : String)
  /-- A call `wallet->transfer(asset(amount), address(addr), memo)` (line 271). -/
  | wallet_transfer
  /-- A call `client()->broadcast_transaction(tx)` (line 148). -/
  | broadcast_transaction
  deriving DecidableEq

/-- The function `cli::confirm_and_broadcast` (lines 135-155), for a
transaction whose description is `tx_info`, when `std::cin >> response` reads
the character `response`. -/
def confirm_and_broadcast (tx_info : String) (response : Char) : List CliEffect :=
  [.print "About to broadcast transaction:\n\n",
   .print (tx_info ++ "\n"),
   .print "Send this transaction? (Y/n)\n",
   .read_response response]
  ++ (if response = 'Y' then
        [.broadcast_transaction, .print "Transaction sent.\n"]
      else
        [.print "Transaction canceled.\n"])

/-- The function `cli_impl::check_unlock` (lines 48-63): when the wallet is
locked the key password is asked for and tried; `unlock_accepts` tells whether
`unlock_wallet` returns rather than throws. The result is the returned `bool`
with the effects. -/
def check_unlock (is_locked : Bool) (password : String) (unlock_accepts : Bool) :
    Bool × List CliEffect :=
  if is_locked then
    if unlock_accepts then
      (true, [.get_line "key password: ", .unlock_wallet password])
    else
      (false, [.get_line "key password: ", .unlock_wallet password,
        .print "Invalid Password\n"])
  else (true, [])

/-- The `sendtoaddress` branch of `cli::process_command` (lines 260-274). -/
def sendtoaddress (is_locked : Bool) (password : String) (unlock_accepts : Bool)
    (tx_info : String) (response : Char) : List CliEffect :=
  let unlocked := check_unlock is_locked password unlock_accepts
  if unlocked.1 then
    unlocked.2 ++ [.print "memo: ", .wallet_transfer] ++ confirm_and_broadcast tx_info response
  else unlocked.2

/-- Number of calls of `broadcast_transaction` in a list of effects. -/
def broadcasts : List CliEffect → Nat
  | [] => 0
  | .broadcast_transaction :: rest => broadcasts rest + 1
  | _ :: rest => broadcasts rest

/-- The result of a loop that reads lines: the value it ends with and the lines
not yet read; or the `eof_exception` that `get_line` throws when there is no
line left (line 39); or that the fuel ran out first. -/
inductive Prompted where
  | value (text : String) (rest : List String)
  | eof
  | out_of_fuel
  deriving DecidableEq

/-- The loop of lines 195-204 that asks for the wallet password until it is
typed twice the same, entered with the given `pass1` and `pass2`; `input` are
the lines still to be typed. -/
def wallet_password_loop : Nat → String → String → List String → Prompted
  | 0, _, _, _ => .out_of_fuel
  | fuel + 1, pass1, pass2, input =>
    if pass1 ≠ pass2 then
      match input with
      | [] => .eof
      | again :: input =>
        if again ≠ pass1 then
          match input with
          | [] => .eof
          | next :: input => wallet_password_loop fuel next "" input
        else wallet_password_loop fuel pass1 again input
    else .value pass1 input

/-- The loop of lines 214-235 that asks for the key password, entered with the
given `keypass1` and `keypass2` (`retry` is false at each entry). A password of
`size()` at most 8 is refused without asking again; `size()` counts bytes. -/
def key_password_loop : Nat → String → String → List String → Prompted
  | 0, _, _, _ => .out_of_fuel
  | fuel + 1, keypass1, keypass2, input =>
    if keypass1 ≠ keypass2 then
      if keypass1.utf8ByteSize > 8 then
        match input with
        | [] => .eof
        | again :: input =>
          if again ≠ keypass1 then
            match input with
            | [] => .eof
            | next :: input => key_password_loop fuel next "" input
          else key_password_loop fuel keypass1 again input
      else
        match input with
        | [] => .eof
        | next :: input => key_password_loop fuel next "" input
    else .value keypass1 input

/-- How the creation of a wallet by the `login` command ends: with the call
`wallet->create(wallet_dat, pass1, keypass1)` of line 241, with the
`eof_exception` of `get_line`, or without fuel. -/
inductive WalletCreation where
  | created (password key_password : String)
  | eof
  | out_of_fuel
  deriving DecidableEq

/-- The `login` branch of `cli::process_command` when no wallet file exists
(lines 185-243), for the lines `input` typed at its prompts. -/
def login_create_wallet (fuel : Nat) (input : List String) : WalletCreation :=
  match input with
  | [] => .eof
  | pass1 :: input =>
    match wallet_password_loop fuel pass1 "" input with
    | .eof => .eof
    | .out_of_fuel => .out_of_fuel
    | .value pass1 input =>
      match input with
      | [] => .eof
      | keypass1 :: input =>
        match key_password_loop fuel keypass1 "" input with
        | .eof => .eof
        | .out_of_fuel => .out_of_fuel
        | .value keypass1 _ => .created pass1 keypass1

/-! ## Theorems -/

theorem transfer_getElem? (balances : List Int) (s d : Nat) (a : Int) (j : Nat) :
    (transfer balances s d a)[j]? =
      (balances[j]?).map
        (fun x => x - (if s = j then a else 0) + (if d = j then a else 0)) := by
  unfold transfer
  rw [List.getElem?_modify, List.getElem?_modify]
  cases balances[j]? with
  | none => rfl
  | some x =>
    simp only [Option.map_eq_map, Option.map_some', Option.some.injEq]
    split_ifs <;> ring

/-- Folding transfers over a list of (sender, recipient) pairs debits each
participant once per appearance as a sender and credits it once per appearance
as a recipient. -/
theorem foldl_transfer_getElem? (a : Int) (ts : List (Nat × Nat)) (balances : List Int)
    (j : Nat) :
    (ts.foldl (fun b t => transfer b t.1 t.2 a) balances)[j]? =
      (balances[j]?).map
        (fun x => x - a * ((ts.map Prod.fst).count j : Nat)
                    + a * ((ts.map Prod.snd).count j : Nat)) := by
  induction ts generalizing balances with
  | nil =>
    rw [List.foldl_nil]
    cases balances[j]? with
    | none => rfl
    | some x => simp
  | cons t ts ih =>
    rw [List.foldl_cons, ih, transfer_getElem?]
    cases balances[j]? with
    | none => rfl
    | some x =>
      simp only [Option.map_some', Option.some.injEq, List.map_cons, List.count_cons,
        beq_iff_eq]
      split_ifs <;> push_cast <;> ring

theorem count_senders (count j : Nat) (h : j < count) : (senders count).count j = 1 :=
  List.count_eq_one_of_mem (List.nodup_range count) (List.mem_range.mpr h)

theorem next_index_eq_iff (count i j : Nat) (hi : i < count) (hj : j < count) :
    (i + 1) % count = j ↔ i = (j + (count - 1)) % count := by
  rcases Nat.lt_or_ge (i + 1) count with h1 | h1
  · rw [Nat.mod_eq_of_lt h1]
    rcases Nat.eq_zero_or_pos j with h0 | hpos
    · subst h0
      rw [Nat.zero_add, Nat.mod_eq_of_lt (by omega)]
      omega
    · have e : j + (count - 1) = (j - 1) + count := by omega
      rw [e, Nat.add_mod_right, Nat.mod_eq_of_lt (by omega)]
      omega
  · have e : i + 1 = count := by omega
    rw [e, Nat.mod_self]
    rcases Nat.eq_zero_or_pos j with h0 | hpos
    · subst h0
      rw [Nat.zero_add, Nat.mod_eq_of_lt (by omega)]
      omega
    · have e2 : j + (count - 1) = (j - 1) + count := by omega
      rw [e2, Nat.add_mod_right, Nat.mod_eq_of_lt (by omega)]
      omega

theorem count_recipients (count j : Nat) (h : j < count) : (recipients count).count j = 1 := by
  unfold recipients
  rw [List.count_eq_countP, List.countP_map]
  have hc : List.countP ((fun x => x == j) ∘ fun i => (i + 1) % count) (List.range count)
      = List.countP (fun x => x == (j + (count - 1)) % count) (List.range count) := by
    apply List.countP_congr
    intro i hi
    have hi' := List.mem_range.mp hi
    simp only [Function.comp_apply, beq_iff_eq]
    exact next_index_eq_iff count i j hi' h
  rw [hc, ← List.count_eq_countP]
  exact List.count_eq_one_of_mem (List.nodup_range count)
    (List.mem_range.mpr (Nat.mod_lt _ (by omega)))

theorem roundRobin_getElem? (count : Nat) (a : Int) (balances : List Int) (j : Nat) :
    (roundRobin count a balances)[j]? =
      (balances[j]?).map
        (fun x => x - a * ((senders count).count j : Nat)
                    + a * ((recipients count).count j : Nat)) := by
  have h := foldl_transfer_getElem? a ((List.range count).map (fun k => (k, (k + 1) % count)))
    balances j
  rw [List.foldl_map, List.map_map, List.map_map] at h
  have e1 : (Prod.fst ∘ fun k : Nat => (k, (k + 1) % count)) = id := rfl
  have e2 : (Prod.snd ∘ fun k : Nat => (k, (k + 1) % count)) = fun i => (i + 1) % count := rfl
  rw [e1, e2, List.map_id] at h
  exact h

theorem roundRobin_conserves (count : Nat) (a : Int) (balances : List Int)
    (hlen : balances.length = count) : roundRobin count a balances = balances := by
  apply List.ext_getElem?
  intro j
  rw [roundRobin_getElem?]
  rcases Nat.lt_or_ge j count with hj | hj
  · rw [count_senders count j hj, count_recipients count j hj]
    cases balances[j]? with
    | none => rfl
    | some x => simp
  · rw [List.getElem?_eq_none (by omega)]
    rfl

/-- C1. Round-robin conservation: for every number `N` of participants, each
starting at 100,000,000 units, after participant `i` has transferred 1,000,000
units to participant `(i+1) mod N` for `i = 0..N-1` in order (each transfer a
fee-free debit of the sender and credit of the recipient), the balances are
again the initial ones: every participant `j < N` ends at 100,000,000, being
the sender of exactly one transfer and the recipient of exactly one. -/
theorem round_robin_conservation (N j : Nat) (hj : j < N) :
    roundRobin N amount_to_transfer (List.replicate N (INITIAL_BALANCE : Int))
        = List.replicate N (INITIAL_BALANCE : Int)
      ∧ (roundRobin N amount_to_transfer (List.replicate N (INITIAL_BALANCE : Int)))[j]?
        = some (100000000 : Int)
      ∧ (senders N).count j = 1 ∧ (recipients N).count j = 1 := by
  have h := roundRobin_conserves N amount_to_transfer (List.replicate N (INITIAL_BALANCE : Int))
    (List.length_replicate N _)
  refine ⟨h, ?_, count_senders N j hj, count_recipients N j hj⟩
  rw [h, List.getElem?_replicate, if_pos hj]
  rfl

/-- C1 at the fleet of the test: `test_process_count = 10` participants, here
participant 9, whose recipient is participant 0. -/
theorem round_robin_conservation_witness :
    (9 : Nat) < test_process_count
      ∧ (roundRobin test_process_count amount_to_transfer
            (List.replicate test_process_count (INITIAL_BALANCE : Int))
          = List.replicate test_process_count (INITIAL_BALANCE : Int)
        ∧ (roundRobin test_process_count amount_to_transfer
            (List.replicate test_process_count (INITIAL_BALANCE : Int)))[9]?
          = some (100000000 : Int)
        ∧ (senders test_process_count).count 9 = 1
        ∧ (recipients test_process_count).count 9 = 1) :=
  ⟨by decide, round_robin_conservation test_process_count 9 (by decide)⟩


/-! ### The convergence poll -/

/-- Totality of the poll: if iterations `s .. s+n-1` neither see the target
balance nor read a clock past the deadline, and iteration `s+n` does one of the
two, the loop entered at `s` ends in iteration `s+n` whenever it has fuel for
`n+1` iterations. -/
theorem pollLoop_of_first_stop (env : PollEnv) (T tgt : Int) :
    ∀ (n fuel s : Nat), n < fuel →
      (∀ j, j < n → env.getbalance (s + j) ≠ tgt ∧ env.now (s + j) ≤ T + poll_timeout) →
      (env.getbalance (s + n) = tgt ∨ T + poll_timeout < env.now (s + n)) →
      ∃ run, pollLoop env T tgt fuel s = some run
        ∧ evaluations run.trace = n + 1
        ∧ run.outcome = (if env.getbalance (s + n) = tgt then .received else .failed) := by
  intro n
  induction n with
  | zero =>
    intro fuel s hf _ hstop
    obtain ⟨f, rfl⟩ : ∃ f, fuel = f + 1 := ⟨fuel - 1, by omega⟩
    simp only [Nat.add_zero] at hstop ⊢
    by_cases hb : env.getbalance s = tgt
    · have e : pollLoop env T tgt (f + 1) s
          = some ⟨.received, [.usleep poll_interval, .getbalance (env.getbalance s)]⟩ := by
        simp only [pollLoop, hb, if_true]
      exact ⟨_, e, by simp [evaluations], by simp [hb]⟩
    · have ht : env.now s > T + poll_timeout := by
        rcases hstop with h | h
        · exact absurd h hb
        · exact h
      have e : pollLoop env T tgt (f + 1) s
          = some ⟨.failed, [.usleep poll_interval, .getbalance (env.getbalance s),
              .now (env.now s)]⟩ := by
        simp only [pollLoop, hb, if_false, ht, if_true]
      exact ⟨_, e, by simp [evaluations], by simp [hb]⟩
  | succ n ih =>
    intro fuel s hf hcont hstop
    obtain ⟨f, rfl⟩ : ∃ f, fuel = f + 1 := ⟨fuel - 1, by omega⟩
    have h0 := hcont 0 (by omega)
    simp only [Nat.add_zero] at h0
    have ht : ¬ env.now s > T + poll_timeout := not_lt.mpr h0.2
    have hcont' : ∀ j, j < n →
        env.getbalance (s + 1 + j) ≠ tgt ∧ env.now (s + 1 + j) ≤ T + poll_timeout := by
      intro j hj
      have := hcont (j + 1) (by omega)
      rwa [show s + 1 + j = s + (j + 1) by omega]
    have hstop' : env.getbalance (s + 1 + n) = tgt ∨ T + poll_timeout < env.now (s + 1 + n) := by
      rwa [show s + 1 + n = s + (n + 1) by omega]
    obtain ⟨run, hrun, hev, hout⟩ := ih f (s + 1) (by omega) hcont' hstop'
    have e : pollLoop env T tgt (f + 1) s
        = some ⟨run.outcome, .usleep poll_interval :: .getbalance (env.getbalance s)
            :: .now (env.now s) :: run.trace⟩ := by
      simp only [pollLoop, h0.1, if_false, ht, hrun, Option.map_some']
    refine ⟨_, e, ?_, ?_⟩
    · simp [evaluations, hev]
    · rw [show s + (n + 1) = s + 1 + n by omega]
      exact hout

/-- Every finished run of the poll, entered at iteration `s`, ended in some
iteration `s+n` with `n` below the fuel: the earlier iterations saw neither the
target nor a clock past the deadline, each evaluation directly followed a
sleep of one interval, and the outcome is the one of iteration `s+n`. -/
theorem pollLoop_some (env : PollEnv) (T tgt : Int) :
    ∀ (fuel s : Nat) (run : PollRun), pollLoop env T tgt fuel s = some run →
      ∃ n, n < fuel
        ∧ (∀ j, j < n → env.getbalance (s + j) ≠ tgt ∧ env.now (s + j) ≤ T + poll_timeout)
        ∧ evaluations run.trace = n + 1
        ∧ sleeps run.trace = n + 1
        ∧ sleepThenEvaluate run.trace = true
        ∧ run.trace.head? = some (.usleep poll_interval)
        ∧ ((run.outcome = .received ∧ env.getbalance (s + n) = tgt)
            ∨ (run.outcome = .failed ∧ env.getbalance (s + n) ≠ tgt
                ∧ T + poll_timeout < env.now (s + n))) := by
  intro fuel
  induction fuel with
  | zero => intro s run h; simp [pollLoop] at h
  | succ f ih =>
    intro s run h
    by_cases hb : env.getbalance s = tgt
    · simp only [pollLoop, hb, if_true, Option.some.injEq] at h
      subst h
      exact ⟨0, by omega, by intro j hj; omega, by simp [evaluations], by simp [sleeps],
        by simp [sleepThenEvaluate], by simp, Or.inl ⟨rfl, by simpa using hb⟩⟩
    · by_cases ht : env.now s > T + poll_timeout
      · simp only [pollLoop, hb, if_false, ht, if_true, Option.some.injEq] at h
        subst h
        exact ⟨0, by omega, by intro j hj; omega, by simp [evaluations], by simp [sleeps],
          by simp [sleepThenEvaluate], by simp, Or.inr ⟨rfl, by simpa using hb, by simpa using ht⟩⟩
      · simp only [pollLoop, hb, if_false, ht, Option.map_eq_some'] at h
        obtain ⟨run', hrun', rfl⟩ := h
        obtain ⟨n, hn, hcont, hev, hsl, hse, _, hout⟩ := ih (s + 1) run' hrun'
        refine ⟨n + 1, by omega, ?_, by simp [evaluations, hev], by simp [sleeps, hsl],
          by simp [sleepThenEvaluate, hse], by simp, ?_⟩
        · intro j hj
          rcases Nat.eq_zero_or_pos j with rfl | hpos
          · exact ⟨hb, not_lt.mp ht⟩
          · have := hcont (j - 1) (by omega)
            rwa [show s + 1 + (j - 1) = s + j by omega] at this
        · rw [show s + (n + 1) = s + 1 + n by omega]
          exact hout

theorem lateArrival_wellTimed : lateArrival.WellTimed 0 := by
  refine ⟨by decide, fun k => ⟨le_refl _, ?_⟩⟩
  show (500000 : Int) * ((k : Int) + 1) + 500000 ≤ 500000 * (((k + 1 : Nat) : Int) + 1)
  push_cast
  omega

/-- C2, as stated, fails. With exact 500 ms sleeps and instantaneous calls
(`lateArrival`, transfer at time 0) the loop reports success although no
evaluation made within 35 seconds saw the expected balance: the clock read after
evaluation 70 of 71 is exactly 35.0 s, which is not past the deadline, so the
loop sleeps again and accepts the balance it sees at 35.5 s. -/
theorem convergence_bound_counterexample :
    lateArrival.WellTimed 0
      ∧ (awaitTransfer lateArrival 0 INITIAL_BALANCE 71).map (fun run => run.outcome)
          = some PollOutcome.received
      ∧ ¬ ∃ k, lateArrival.getbalance k = INITIAL_BALANCE + amount_to_transfer
            ∧ lateArrival.evaluated_at k ≤ 0 + poll_timeout := by
  refine ⟨lateArrival_wellTimed, by decide, ?_⟩
  rintro ⟨k, hb, ht⟩
  have hk : ¬ k < 70 := by
    intro hlt
    have : lateArrival.getbalance k = INITIAL_BALANCE := by simp [lateArrival, hlt]
    rw [this] at hb
    exact absurd hb (by decide)
  have ht' : (500000 : Int) * ((k : Int) + 1) ≤ 0 + 35000000 := ht
  omega

/-- C2, amended. The polling loop ends with outcome `o` after `k+1` evaluations
exactly when it has fuel for them, none of the first `k` evaluations saw the
expected balance and none of the clock readings after them was later than 35
seconds after `transfer_time`, and either `o` is success and evaluation `k+1`
saw the destination's pre-transfer balance plus exactly 1,000,000, or `o` is the
timeout failure and evaluation `k+1` did not see it and the clock read after it
was later than 35 seconds after `transfer_time`. -/
theorem convergence_bound (env : PollEnv) (transfer_time destination_initial_balance : Int)
    (fuel k : Nat) (o : PollOutcome) :
    (∃ run, awaitTransfer env transfer_time destination_initial_balance fuel = some run
        ∧ run.outcome = o ∧ evaluations run.trace = k + 1)
      ↔ (k < fuel
        ∧ (∀ j, j < k →
            env.getbalance j ≠ destination_initial_balance + amount_to_transfer
              ∧ env.now j ≤ transfer_time + poll_timeout)
        ∧ ((o = .received
              ∧ env.getbalance k = destination_initial_balance + amount_to_transfer)
          ∨ (o = .failed
              ∧ env.getbalance k ≠ destination_initial_balance + amount_to_transfer
              ∧ transfer_time + poll_timeout < env.now k))) := by
  unfold awaitTransfer
  constructor
  · rintro ⟨run, hrun, ho, hev⟩
    obtain ⟨n, hn, hcont, hev', _, _, _, hout⟩ := pollLoop_some env _ _ fuel 0 run hrun
    have hnk : n = k := by omega
    subst hnk
    simp only [Nat.zero_add] at hcont hout
    rw [ho] at hout
    exact ⟨hn, hcont, hout⟩
  · rintro ⟨hk, hcont, hout⟩
    have hcont' : ∀ j, j < k →
        env.getbalance (0 + j) ≠ destination_initial_balance + amount_to_transfer
          ∧ env.now (0 + j) ≤ transfer_time + poll_timeout := by
      intro j hj
      simpa using hcont j hj
    have hstop : env.getbalance (0 + k) = destination_initial_balance + amount_to_transfer
        ∨ transfer_time + poll_timeout < env.now (0 + k) := by
      rcases hout with ⟨_, h⟩ | ⟨_, _, h⟩
      · exact Or.inl (by simpa using h)
      · exact Or.inr (by simpa using h)
    obtain ⟨run, hrun, hev, ho⟩ := pollLoop_of_first_stop env _ _ k fuel 0 hk hcont' hstop
    refine ⟨run, hrun, ?_, hev⟩
    rw [ho]
    simp only [Nat.zero_add]
    rcases hout with ⟨rfl, h⟩ | ⟨rfl, h, _⟩
    · simp [h]
    · simp [h]

/-- C3, as stated, fails. When the destination already shows the expected
balance as the transfer call returns (`alreadyArrived`), the loop still sleeps
500 ms before its first evaluation: it reports success after one sleep, not
zero, and the sleep is the first step of the run. -/
theorem poll_immediate_counterexample :
    alreadyArrived.getbalance 0 = INITIAL_BALANCE + amount_to_transfer
      ∧ awaitTransfer alreadyArrived 0 INITIAL_BALANCE 1
          = some ⟨.received, [.usleep 500000, .getbalance 101000000]⟩
      ∧ (awaitTransfer alreadyArrived 0 INITIAL_BALANCE 1).map (fun run => sleeps run.trace)
          = some 1 := by
  decide

/-- C3, amended. The convergence poll sleeps one interval before every
evaluation, the first included: when the predicate is already true as the
transfer call returns, the poll (given fuel for one iteration) returns success
after exactly one sleep and one evaluation; and every finished run starts with
a sleep of one interval, has each evaluation directly after such a sleep, and
so has as many sleeps as evaluations. -/
theorem poll_sleeps_before_evaluating (env : PollEnv)
    (transfer_time destination_initial_balance : Int) :
    (env.getbalance 0 = destination_initial_balance + amount_to_transfer →
      ∀ fuel, 0 < fuel →
        awaitTransfer env transfer_time destination_initial_balance fuel
          = some ⟨.received, [.usleep poll_interval,
              .getbalance (destination_initial_balance + amount_to_transfer)]⟩)
    ∧ (∀ fuel run, awaitTransfer env transfer_time destination_initial_balance fuel = some run →
        run.trace.head? = some (.usleep poll_interval)
          ∧ sleepThenEvaluate run.trace = true
          ∧ sleeps run.trace = evaluations run.trace) := by
  unfold awaitTransfer
  constructor
  · intro h0 fuel hf
    obtain ⟨f, rfl⟩ : ∃ f, fuel = f + 1 := ⟨fuel - 1, by omega⟩
    simp only [pollLoop, h0, if_true]
  · intro fuel run hrun
    obtain ⟨n, _, _, hev, hsl, hse, hhd, _⟩ := pollLoop_some env _ _ fuel 0 run hrun
    exact ⟨hhd, hse, by omega⟩

/-- C3, amended, at `alreadyArrived`: one sleep, one evaluation, success. -/
theorem poll_sleeps_before_evaluating_witness :
    alreadyArrived.getbalance 0 = INITIAL_BALANCE + amount_to_transfer
      ∧ awaitTransfer alreadyArrived 0 INITIAL_BALANCE 1
          = some ⟨.received, [.usleep poll_interval,
              .getbalance (INITIAL_BALANCE + amount_to_transfer)]⟩ :=
  ⟨by decide,
    (poll_sleeps_before_evaluating alreadyArrived 0 INITIAL_BALANCE).1 (by decide) 1
      (by decide)⟩

theorem wellTimed_now_ge (env : PollEnv) (T : Int) (h : env.WellTimed T) :
    ∀ k : Nat, T + 500000 * ((k : Int) + 1) ≤ env.now k := by
  intro k
  induction k with
  | zero =>
    have h1 := h.1
    have h2 := (h.2 0).1
    simp only [Nat.cast_zero]
    omega
  | succ k ih =>
    have h1 := (h.2 k).2
    have h2 := (h.2 (k + 1)).1
    push_cast
    omega

theorem neverArrives_wellTimed : neverArrives.WellTimed 0 := by
  refine ⟨by decide, fun k => ⟨le_refl _, ?_⟩⟩
  show (500000 : Int) * ((k : Int) + 1) + 500000 ≤ 500000 * (((k + 1 : Nat) : Int) + 1)
  push_cast
  omega

/-- C4. Polling is bounded: whatever balances are observed, if the clock is
monotonic and each sleep advances it by at least 500 ms, the polling loop ends
(given fuel for 71 iterations), with success or with the timeout failure, after
at most 71 evaluations of the predicate. -/
theorem polling_is_bounded (env : PollEnv) (transfer_time destination_initial_balance : Int)
    (fuel : Nat) (hclock : env.WellTimed transfer_time) (hfuel : 71 ≤ fuel) :
    ∃ run, awaitTransfer env transfer_time destination_initial_balance fuel = some run
      ∧ evaluations run.trace ≤ 71 := by
  unfold awaitTransfer
  have hex : ∃ n, env.getbalance n = destination_initial_balance + amount_to_transfer
      ∨ transfer_time + poll_timeout < env.now n := by
    refine ⟨70, Or.inr ?_⟩
    have := wellTimed_now_ge env transfer_time hclock 70
    simp only [poll_timeout]
    push_cast at this
    omega
  have hle : Nat.find hex ≤ 70 := by
    apply Nat.find_min'
    have := wellTimed_now_ge env transfer_time hclock 70
    simp only [poll_timeout]
    push_cast at this
    exact Or.inr (by omega)
  have hcont : ∀ j, j < Nat.find hex →
      env.getbalance (0 + j) ≠ destination_initial_balance + amount_to_transfer
        ∧ env.now (0 + j) ≤ transfer_time + poll_timeout := by
    intro j hj
    have := Nat.find_min hex hj
    simp only [not_or, not_lt] at this
    simpa using this
  have hstop := Nat.find_spec hex
  obtain ⟨run, hrun, hev, _⟩ := pollLoop_of_first_stop env transfer_time
    (destination_initial_balance + amount_to_transfer) (Nat.find hex) fuel 0 (by omega) hcont
    (by simpa using hstop)
  exact ⟨run, hrun, by omega⟩

/-- C4 at an environment where the balance never changes and every sleep lasts
exactly 500 ms: the loop ends, here after exactly 71 evaluations. -/
theorem polling_is_bounded_witness :
    neverArrives.WellTimed 0 ∧ 71 ≤ 71
      ∧ ∃ run, awaitTransfer neverArrives 0 INITIAL_BALANCE 71 = some run
          ∧ evaluations run.trace ≤ 71 :=
  ⟨neverArrives_wellTimed, le_refl _,
    polling_is_bounded neverArrives 0 INITIAL_BALANCE 71 neverArrives_wellTimed (le_refl _)⟩

/-! ### Decimal rendering and directory names -/

theorem digitChar_value (d : Nat) (h : d < 10) : (Nat.digitChar d).toNat - 48 = d := by
  interval_cases d <;> rfl

theorem toDigitsCore_succ (f n : Nat) (ds : List Char) :
    Nat.toDigitsCore 10 (f + 1) n ds =
      if n / 10 = 0 then Nat.digitChar (n % 10) :: ds
      else Nat.toDigitsCore 10 f (n / 10) (Nat.digitChar (n % 10) :: ds) := rfl

theorem decimalValue_cons (acc : Nat) (c : Char) (cs : List Char) :
    decimalValue acc (c :: cs) = decimalValue (acc * 10 + (c.toNat - 48)) cs := rfl

theorem digitChar_isDigit (d : Nat) (h : d < 10) : (Nat.digitChar d).isDigit = true := by
  interval_cases d <;> rfl

/-- Reading back what `Nat.toDigitsCore` produced in front of `ds` gives the
number it rendered, followed by the reading of `ds`. -/
theorem decimalValue_toDigitsCore :
    ∀ (fuel n : Nat) (ds : List Char), n < fuel →
      decimalValue 0 (Nat.toDigitsCore 10 fuel n ds) = decimalValue n ds := by
  intro fuel
  induction fuel with
  | zero => intro n ds h; omega
  | succ f ih =>
    intro n ds h
    have hd := digitChar_value (n % 10) (Nat.mod_lt n (by decide))
    by_cases h0 : n / 10 = 0
    · rw [toDigitsCore_succ, if_pos h0, decimalValue_cons, hd]
      congr 1
      omega
    · rw [toDigitsCore_succ, if_neg h0, ih (n / 10) _ (by omega), decimalValue_cons, hd]
      congr 1
      omega

theorem toDigitsCore_isDigit :
    ∀ (fuel n : Nat) (ds : List Char) (c : Char),
      c ∈ Nat.toDigitsCore 10 fuel n ds → c ∈ ds ∨ c.isDigit = true := by
  intro fuel
  induction fuel with
  | zero => intro n ds c h; exact Or.inl h
  | succ f ih =>
    intro n ds c h
    have hd := digitChar_isDigit (n % 10) (Nat.mod_lt n (by decide))
    by_cases h0 : n / 10 = 0
    · rw [toDigitsCore_succ, if_pos h0] at h
      rcases List.mem_cons.mp h with rfl | h
      · exact Or.inr hd
      · exact Or.inl h
    · rw [toDigitsCore_succ, if_neg h0] at h
      rcases ih _ _ _ h with h | h
      · rcases List.mem_cons.mp h with rfl | h
        · exact Or.inr hd
        · exact Or.inl h
      · exact Or.inr h

theorem toDigits_isDigit (n : Nat) (c : Char) (h : c ∈ Nat.toDigits 10 n) :
    c.isDigit = true := by
  rcases toDigitsCore_isDigit (n + 1) n [] c h with h | h
  · simp at h
  · exact h

theorem decimalValue_replicate_zero (k : Nat) (cs : List Char) :
    decimalValue 0 (List.replicate k '0' ++ cs) = decimalValue 0 cs := by
  induction k with
  | zero => rfl
  | succ k ih =>
    rw [List.replicate_succ, List.cons_append]
    exact ih

/-- The zero-filled rendering reads back as the process number. -/
theorem decimalValue_setw3_fill0 (n : Nat) : decimalValue 0 (setw3_fill0 n).data = n := by
  unfold setw3_fill0 List.leftpad
  rw [decimalValue_replicate_zero]
  exact decimalValue_toDigitsCore (n + 1) n [] (by omega)

theorem setw3_fill0_isDigit (n : Nat) (c : Char) (h : c ∈ (setw3_fill0 n).data) :
    c.isDigit = true := by
  unfold setw3_fill0 List.leftpad at h
  rcases List.mem_append.mp h with h | h
  · rw [(List.mem_replicate.mp h).2]
    rfl
  · exact toDigits_isDigit n c h

theorem setw3_fill0_ne_nil (n : Nat) : (setw3_fill0 n).data ≠ [] := by
  intro h
  have hlen : (setw3_fill0 n).data.length = 0 := by rw [h]; rfl
  unfold setw3_fill0 List.leftpad at hlen
  simp only [List.length_append, List.length_replicate] at hlen
  omega

theorem numbered_config_dir_name_injective (i j : Nat)
    (h : numbered_config_dir_name i = numbered_config_dir_name j) : i = j := by
  unfold numbered_config_dir_name at h
  have hd := congrArg String.data h
  rw [String.data_append, String.data_append] at hd
  have hpad := List.append_cancel_left hd
  rw [← decimalValue_setw3_fill0 i, ← decimalValue_setw3_fill0 j, hpad]

theorem numbered_config_dir_name_ne_server (i : Nat) :
    numbered_config_dir_name i ≠ server_config_dir_name := by
  intro h
  unfold numbered_config_dir_name at h
  have hd := congrArg String.data h
  rw [String.data_append] at hd
  have hs : server_config_dir_name.data = ("BitSharesX_" : String).data ++ ("Server" : String).data := by
    decide
  rw [hs] at hd
  have hpad := List.append_cancel_left hd
  have hS : 'S' ∈ (setw3_fill0 i).data := by rw [hpad]; decide
  have := setw3_fill0_isDigit i 'S' hS
  exact absurd this (by decide)

theorem path_append_injective (directory a b : String)
    (h : path_append directory a = path_append directory b) : a = b := by
  unfold path_append at h
  have hd := congrArg String.data h
  rw [String.data_append, String.data_append] at hd
  exact String.ext (List.append_cancel_left hd)

/-- C7. The working directories of a fleet are pairwise distinct: for process
numbers `i ≠ j` the directory names `BitSharesX_` followed by the number in
decimal, zero-padded to a minimum width of 3, differ, and no participant's name
is the trust-delegate's `BitSharesX_Server`; so the directories made from
them under the one configuration directory differ as well. -/
theorem working_directories_distinct (config_directory : String) (i j : Nat) (hij : i ≠ j) :
    numbered_config_dir_name i ≠ numbered_config_dir_name j
      ∧ numbered_config_dir_name i ≠ server_config_dir_name
      ∧ path_append config_directory (numbered_config_dir_name i)
          ≠ path_append config_directory (numbered_config_dir_name j)
      ∧ path_append config_directory (numbered_config_dir_name i)
          ≠ path_append config_directory server_config_dir_name := by
  refine ⟨fun h => hij (numbered_config_dir_name_injective i j h),
    numbered_config_dir_name_ne_server i, fun h => hij ?_, fun h => ?_⟩
  · exact numbered_config_dir_name_injective i j (path_append_injective _ _ _ h)
  · exact numbered_config_dir_name_ne_server i (path_append_injective _ _ _ h)

/-- C7 at process numbers 1 and 10, whose padded renderings are `001` and
`010`. -/
theorem working_directories_distinct_witness :
    (1 : Nat) ≠ 10
      ∧ numbered_config_dir_name 1 = "BitSharesX_001"
      ∧ numbered_config_dir_name 10 = "BitSharesX_010"
      ∧ (numbered_config_dir_name 1 ≠ numbered_config_dir_name 10
        ∧ numbered_config_dir_name 1 ≠ server_config_dir_name
        ∧ path_append "/tmp/bts_xt_client_tests" (numbered_config_dir_name 1)
            ≠ path_append "/tmp/bts_xt_client_tests" (numbered_config_dir_name 10)
        ∧ path_append "/tmp/bts_xt_client_tests" (numbered_config_dir_name 1)
            ≠ path_append "/tmp/bts_xt_client_tests" server_config_dir_name) :=
  ⟨by decide, by decide, by decide,
    working_directories_distinct "/tmp/bts_xt_client_tests" 1 10 (by decide)⟩

/-! ### Option lists -/

theorem repr_ne_trustee_private_key (p : Nat) : Nat.repr p ≠ "--trustee-private-key" := by
  intro h
  have hmem : '-' ∈ (Nat.repr p).data := by rw [h]; decide
  have := toDigits_isDigit p '-' hmem
  exact absurd this (by decide)

theorem data_dir_ne_trustee_private_key (config_directory : String) (n : Nat) :
    path_append config_directory (numbered_config_dir_name n) ≠ "--trustee-private-key" := by
  intro h
  have hmem : '_' ∈ (path_append config_directory (numbered_config_dir_name n)).data := by
    unfold path_append numbered_config_dir_name
    simp only [String.data_append, List.mem_append]
    exact Or.inr (Or.inl (by decide))
  rw [h] at hmem
  exact absurd hmem (by decide)

/-- Without `act_as_trustee` the option list has no `--trustee-private-key`. -/
theorem trustee_private_key_not_mem_client_options {K A : Type} (ops : KeyOps K A)
    (config_directory : String) (n port : Nat) (trustee_key : K)
    (haddr : ops.address trustee_key ≠ "--trustee-private-key") :
    "--trustee-private-key" ∉ client_options ops config_directory n port trustee_key false := by
  intro h
  simp only [client_options, Bool.false_eq_true, if_false, List.mem_cons, List.mem_singleton,
    List.not_mem_nil, or_false] at h
  rcases h with h | h | h | h | h | h | h | h | h
  · exact absurd h (by decide)
  · exact data_dir_ne_trustee_private_key config_directory n h.symm
  · exact absurd h (by decide)
  · exact absurd h (by decide)
  · exact absurd h (by decide)
  · exact absurd h (by decide)
  · exact repr_ne_trustee_private_key port h.symm
  · exact absurd h (by decide)
  · exact haddr h.symm

/-- C5. For every participant `i`, the argument list built for it contains
`--trustee-private-key` if and only if `i = 0`, and for `i = 0` that option
comes once, at the end, followed by the trust-delegate's secret; the argument
list of the trust-delegate process is exactly `--trustee-address` followed by
the address derived from the trust-delegate's public key, so it does not
contain `--trustee-private-key`, nor the secret unless the secret's text were
the address or `--trustee-address`. The rendering of the address comes from
outside the test file and is taken not to be the text
`--trustee-private-key`. -/
theorem trustee_private_key_only_for_participant_zero {K A : Type} (ops : KeyOps K A)
    (config_directory : String) (trustee_key : K) (i : Nat)
    (haddr : ops.address trustee_key ≠ "--trustee-private-key") :
    ("--trustee-private-key" ∈ participant_options ops config_directory trustee_key i ↔ i = 0)
      ∧ (i = 0 → ∃ front,
          participant_options ops config_directory trustee_key i
              = front ++ ["--trustee-private-key", ops.get_secret trustee_key]
            ∧ "--trustee-private-key" ∉ front)
      ∧ server_options ops trustee_key = ["--trustee-address", ops.address trustee_key]
      ∧ "--trustee-private-key" ∉ server_options ops trustee_key
      ∧ (ops.get_secret trustee_key ≠ ops.address trustee_key →
          ops.get_secret trustee_key ≠ "--trustee-address" →
          ops.get_secret trustee_key ∉ server_options ops trustee_key) := by
  have hfalse := trustee_private_key_not_mem_client_options ops config_directory i (rpc_port i)
    trustee_key haddr
  have htrue : client_options ops config_directory i (rpc_port i) trustee_key true
      = client_options ops config_directory i (rpc_port i) trustee_key false
          ++ ["--trustee-private-key", ops.get_secret trustee_key] := by
    simp [client_options]
  refine ⟨?_, ?_, rfl, ?_, ?_⟩
  · unfold participant_options
    by_cases h0 : i = 0
    · have hb : (i == 0) = true := by simp [h0]
      rw [hb, htrue]
      simp [h0]
    · have hb : (i == 0) = false := by simp [h0]
      rw [hb]
      simp [h0, hfalse]
  · intro h0
    have hb : (i == 0) = true := by simp [h0]
    refine ⟨client_options ops config_directory i (rpc_port i) trustee_key false, ?_, hfalse⟩
    unfold participant_options
    rw [hb, htrue]
  · intro h
    simp only [server_options, List.mem_cons, List.mem_singleton, List.not_mem_nil,
      or_false] at h
    rcases h with h | h
    · exact absurd h (by decide)
    · exact haddr h.symm
  · intro hsecret hsecret' h
    simp only [server_options, List.mem_cons, List.mem_singleton, List.not_mem_nil,
      or_false] at h
    rcases h with h | h
    · exact hsecret' h
    · exact hsecret h

/-- C5 at the example keys, trustee key 7: participant 0 gets the private key,
participant 3 does not, and the trust-delegate's list has no secret. -/
theorem trustee_private_key_only_for_participant_zero_witness :
    exampleKeys.address 7 ≠ "--trustee-private-key"
      ∧ participant_options exampleKeys "/tmp/bts_xt_client_tests" 7 0
          = ["--data-dir", "/tmp/bts_xt_client_tests/BitSharesX_000", "--server",
             "--rpcuser=test", "--rpcpassword=test", "--rpcport", "20100",
             "--trustee-address", "a7", "--trustee-private-key", "s7"]
      ∧ ("--trustee-private-key"
            ∈ participant_options exampleKeys "/tmp/bts_xt_client_tests" 7 3 ↔ 3 = 0)
      ∧ exampleKeys.get_secret 7 ∉ server_options exampleKeys 7 :=
  ⟨by decide, by decide,
    (trustee_private_key_only_for_participant_zero exampleKeys "/tmp/bts_xt_client_tests" 7 3
      (by decide)).1,
    (trustee_private_key_only_for_participant_zero exampleKeys "/tmp/bts_xt_client_tests" 7 0
      (by decide)).2.2.2.2 (by decide) (by decide)⟩

/-! ### Genesis allocation -/

theorem genesis_balances_eq_map {K A : Type} (ops : KeyOps K A) (private_key : Nat → K)
    (count : Nat) :
    genesis_balances ops private_key count
      = (List.range count).map (fun i => (ops.pts_address (private_key i), INITIAL_BALANCE)) := by
  unfold genesis_balances
  induction count with
  | zero => rfl
  | succ n ih => rw [List.range_succ, List.foldl_append, ih, List.map_append]; rfl

/-- C6. The genesis allocation built for `N` participants has exactly `N`
entries, the `i`-th being (address derived from participant `i`'s public key,
100000000); and when the generated keys are pairwise distinct and address
derivation is injective, the address of every participant `i < N` appears in
the allocation exactly once. -/
theorem genesis_allocation {K A : Type} [DecidableEq A] (ops : KeyOps K A)
    (private_key : Nat → K) (N i : Nat) (hi : i < N) :
    (genesis_balances ops private_key N).length = N
      ∧ (genesis_balances ops private_key N)[i]?
          = some (ops.pts_address (private_key i), 100000000)
      ∧ ((∀ a b, a < N → b < N → a ≠ b → private_key a ≠ private_key b) →
          Function.Injective ops.pts_address →
          ((genesis_balances ops private_key N).map Prod.fst).count
            (ops.pts_address (private_key i)) = 1) := by
  rw [genesis_balances_eq_map]
  refine ⟨by simp, ?_, ?_⟩
  · rw [List.getElem?_map, List.getElem?_range hi]
    rfl
  · intro hkeys hinj
    rw [List.map_map]
    apply List.count_eq_one_of_mem
    · apply List.Nodup.map_on _ (List.nodup_range N)
      intro a ha b hb hab
      by_contra hne
      exact hkeys a b (List.mem_range.mp ha) (List.mem_range.mp hb) hne (hinj hab)
    · exact List.mem_map.mpr ⟨i, List.mem_range.mpr hi, rfl⟩

/-- C6 at the example keys, with participant `i` holding key `i + 5`: entry 2
of a fleet of 10 is `(7, 100000000)` and address 7 occurs once. -/
theorem genesis_allocation_witness :
    (2 : Nat) < 10
      ∧ (genesis_balances exampleKeys (fun i => i + 5) 10)[2]? = some (7, 100000000)
      ∧ ((genesis_balances exampleKeys (fun i => i + 5) 10).map Prod.fst).count 7 = 1 :=
  ⟨by decide,
    (genesis_allocation exampleKeys (fun i => i + 5) 10 2 (by decide)).2.1,
    (genesis_allocation exampleKeys (fun i => i + 5) 10 2 (by decide)).2.2
      (fun a b _ _ h e => h (Nat.add_right_cancel e)) (fun a b h => h)⟩

/-! ### Control ports -/

/-- C8, as stated, fails for large fleets. The port is stored in a `uint16_t`,
so in a fleet of 65537 participants number 65536 gets the port of participant
0, namely 20100. -/
theorem control_ports_counterexample :
    (0 : Nat) < 65537 ∧ (65536 : Nat) < 65537 ∧ (0 : Nat) ≠ 65536
      ∧ rpc_port 0 = 20100 ∧ rpc_port 65536 = 20100 := by
  decide

/-- C8, amended. For any fleet of size `N ≤ 65536` the control ports of the
participants are pairwise distinct: participant `i` is given port
`base_rpc_port + i` reduced to 16 bits (base 20100), which is `20100 + i` itself
for `i < 45436`, and for all `i ≠ j` in `0..N-1` the two stored ports differ. -/
theorem control_ports_distinct (N i j : Nat) (hN : N ≤ 65536) (hi : i < N) (hj : j < N)
    (hij : i ≠ j) :
    rpc_port i ≠ rpc_port j ∧ (i < 45436 → rpc_port i = 20100 + i) := by
  unfold rpc_port base_rpc_port
  constructor
  · omega
  · intro h
    omega

/-- C8, amended, at the fleet of the test: participants 0 and 9 of 10. -/
theorem control_ports_distinct_witness :
    test_process_count ≤ 65536 ∧ (0 : Nat) < test_process_count ∧ (9 : Nat) < test_process_count
      ∧ (0 : Nat) ≠ 9
      ∧ (rpc_port 0 ≠ rpc_port 9 ∧ ((0 : Nat) < 45436 → rpc_port 0 = 20100 + 0)) :=
  ⟨by decide, by decide, by decide, by decide,
    control_ports_distinct test_process_count 0 9 (by decide) (by decide) (by decide)
      (by decide)⟩

/-! ### The drain loop -/

/-- Entered at read `s`, with `n` non-empty reads ahead of a zero-length one and
fuel for all of them, the drain loop writes those `n` chunks in order and stops
at read `s + n`. -/
theorem drainLoop_until_zero (readsome : Nat → List Nat) :
    ∀ (n fuel s : Nat), n < fuel → readsome (s + n) = [] →
      (∀ j, j < n → readsome (s + j) ≠ []) →
      drainLoop readsome fuel s
        = some ⟨((List.range' s n).map readsome).flatten, s + n + 1⟩ := by
  intro n
  induction n with
  | zero =>
    intro fuel s hf hz _
    obtain ⟨f, rfl⟩ : ∃ f, fuel = f + 1 := ⟨fuel - 1, by omega⟩
    rw [Nat.add_zero] at hz
    simp [drainLoop, hz]
  | succ n ih =>
    intro fuel s hf hz hne
    obtain ⟨f, rfl⟩ : ∃ f, fuel = f + 1 := ⟨fuel - 1, by omega⟩
    have h0 : (readsome s).length ≠ 0 := by
      have := hne 0 (by omega)
      rw [Nat.add_zero] at this
      exact fun h => this (List.length_eq_zero.mp h)
    have hz' : readsome (s + 1 + n) = [] := by
      rwa [show s + 1 + n = s + (n + 1) by omega]
    have hne' : ∀ j, j < n → readsome (s + 1 + j) ≠ [] := by
      intro j hj
      have := hne (j + 1) (by omega)
      rwa [show s + 1 + j = s + (j + 1) by omega]
    have hrec := ih f (s + 1) (by omega) hz' hne'
    simp only [drainLoop, h0, if_false, hrec, Option.map_some', List.range'_succ, List.map_cons,
      List.flatten_cons]
    rw [show s + 1 + n + 1 = s + (n + 1) + 1 by omega]

/-- C9. Whatever the stream returns, if its read number `n` (counted from 0) is
the first of length zero, one drain task (given fuel for `n + 1` reads) appends
to the sink exactly the concatenation, in order, of the chunks returned by reads
`0 .. n-1`, and ends having made exactly `n + 1` reads, the zero-length one
being the last. -/
theorem drain_copies_until_first_empty_read (readsome : Nat → List Nat) (n fuel : Nat)
    (hzero : readsome n = []) (hbefore : ∀ j, j < n → readsome j ≠ [])
    (hfuel : n < fuel) :
    drainLoop readsome fuel 0
      = some ⟨((List.range n).map readsome).flatten, n + 1⟩ := by
  have h := drainLoop_until_zero readsome n fuel 0 hfuel (by simpa using hzero)
    (by intro j hj; simpa using hbefore j hj)
  rw [h, List.range_eq_range']
  simp

/-- C9 at the example stream: two chunks, then a zero-length read; the bytes
offered after it are never read. -/
theorem drain_copies_until_first_empty_read_witness :
    exampleStream 2 = []
      ∧ (∀ j, j < 2 → exampleStream j ≠ [])
      ∧ (2 : Nat) < 5
      ∧ drainLoop exampleStream 5 0 = some ⟨[104, 105, 10], 2 + 1⟩ :=
  ⟨rfl, by decide, by decide,
    drain_copies_until_first_empty_read exampleStream 2 5 rfl (by decide) (by decide)⟩

/-! ### Drain tasks of the fleet -/

theorem drain_tasks_started_append (xs ys : List LaunchEffect) :
    drain_tasks_started (xs ++ ys) = drain_tasks_started xs + drain_tasks_started ys := by
  induction xs with
  | nil => simp [drain_tasks_started]
  | cons x xs ih =>
    cases x <;> simp [drain_tasks_started, ih]
    omega

theorem drain_tasks_started_client {K A : Type} (ops : KeyOps K A) (config_directory : String)
    (n port : Nat) (trustee_key : K) (act_as_trustee : Bool) :
    drain_tasks_started
      (launch_bts_client_process ops config_directory n port trustee_key act_as_trustee) = 0 :=
  rfl

theorem drain_tasks_started_server {K A : Type} (ops : KeyOps K A) (config_directory : String)
    (trustee_key : K) :
    drain_tasks_started (launch_bts_server_process ops config_directory trustee_key) = 2 :=
  rfl

/-- What the code does for a fleet of any size: the launch of the trust-delegate
starts two drain tasks, the launch of a participant none, so launching the
whole fleet starts 2 drain tasks however many participants there are. -/
theorem drain_tasks_started_launch_fleet {K A : Type} (ops : KeyOps K A)
    (config_directory : String) (trustee_key : K) (N : Nat) :
    drain_tasks_started (launch_fleet ops config_directory trustee_key N) = 2 := by
  unfold launch_fleet
  induction N with
  | zero => rfl
  | succ n ih =>
    rw [List.range_succ, List.foldl_append, List.foldl_cons, List.foldl_nil,
      drain_tasks_started_append, ih, drain_tasks_started_client]

/-- C10 at the failing input: the fleet of the test, 10 participants and one
trust-delegate. The launch of the trust-delegate starts its two drain tasks
(standard output and standard error), the launch of a participant, here
participant 0, starts none, and the whole fleet is launched with 2 drain tasks
started where the claim says 2 * (10 + 1) = 22. -/
theorem drain_tasks_of_the_test_fleet :
    drain_tasks_started
        (launch_bts_server_process exampleKeys "/tmp/bts_xt_client_tests" 7) = 2
      ∧ drain_tasks_started
          (launch_bts_client_process exampleKeys "/tmp/bts_xt_client_tests" 0 (rpc_port 0) 7 true)
        = 0
      ∧ drain_tasks_started
          (launch_fleet exampleKeys "/tmp/bts_xt_client_tests" 7 test_process_count) = 2
      ∧ (2 : Nat) ≠ 2 * (test_process_count + 1) := by
  decide

/-! ### Teardown -/

/-- C11. Terminating the supervised process: in every state of the two futures
(invalid, pending, ready) the destructor of `bts_server_process_info` first
sends the kill; it waits on a drain task exactly when that task was started and
has not completed when its turn comes, so a never-started or already-ready task
is not waited on; and when it returns no started drain task is still pending. -/
theorem destructor_kills_then_joins (info : bts_server_process_info)
    (completed_meanwhile : Bool) :
    (bts_server_process_info_destructor info completed_meanwhile).events.head?
        = some (.kill .server)
      ∧ (TeardownEvent.wait .out_stream
            ∈ (bts_server_process_info_destructor info completed_meanwhile).events
          ↔ info.stdout_reader_done = .pending)
      ∧ (TeardownEvent.wait .err_stream
            ∈ (bts_server_process_info_destructor info completed_meanwhile).events
          ↔ info.stderr_reader_done = .pending ∧ completed_meanwhile = false)
      ∧ (bts_server_process_info_destructor info completed_meanwhile).stdout_reader_done
          ≠ .pending
      ∧ (bts_server_process_info_destructor info completed_meanwhile).stderr_reader_done
          ≠ .pending
      ∧ ((bts_server_process_info_destructor info completed_meanwhile).stdout_reader_done
            = .invalid ↔ info.stdout_reader_done = .invalid)
      ∧ ((bts_server_process_info_destructor info completed_meanwhile).stderr_reader_done
            = .invalid ↔ info.stderr_reader_done = .invalid) := by
  obtain ⟨out, err⟩ := info
  cases out <;> cases err <;> cases completed_meanwhile <;> decide

theorem killed_processes_append (xs ys : List TeardownEvent) :
    killed_processes (xs ++ ys) = killed_processes xs ++ killed_processes ys := by
  induction xs with
  | nil => rfl
  | cons x xs ih => cases x <;> simp [killed_processes, ih]

theorem killed_processes_release (ps : List FleetProcess) :
    killed_processes (ps.map TeardownEvent.release) = [] := by
  induction ps with
  | nil => rfl
  | cons p ps ih => simpa [killed_processes] using ih

theorem killed_processes_destructor (info : bts_server_process_info)
    (completed_meanwhile : Bool) :
    killed_processes (bts_server_process_info_destructor info completed_meanwhile).events
      = [.server] := by
  obtain ⟨out, err⟩ := info
  cases out <;> cases err <;> cases completed_meanwhile <;> decide

/-- C12, the code at a fleet of `count` participants. The teardown is the same
on both exit paths of the scenario and sends a kill to the trust-delegate
process, but to no participant process: the only `kill()` of the test file is
the one in the destructor of `bts_server_process_info`, and the participants'
process handles are merely let go. -/
theorem teardown_kills_only_the_server (count : Nat) (info : bts_server_process_info)
    (completed_meanwhile : Bool) (i : Nat) :
    transfer_test_teardown count info completed_meanwhile .completed
        = transfer_test_teardown count info completed_meanwhile (.convergence_failed i)
      ∧ killed_processes
          (transfer_test_teardown count info completed_meanwhile (.convergence_failed i))
        = [.server]
      ∧ FleetProcess.participant i
          ∉ killed_processes
              (transfer_test_teardown count info completed_meanwhile (.convergence_failed i))
      ∧ (i < count → TeardownEvent.release (.participant i)
          ∈ transfer_test_teardown count info completed_meanwhile (.convergence_failed i)) := by
  have hk : killed_processes
      (transfer_test_teardown count info completed_meanwhile (.convergence_failed i))
      = [.server] := by
    unfold transfer_test_teardown
    rw [killed_processes_append, killed_processes_append, killed_processes_destructor]
    have h := killed_processes_release ((List.range count).map FleetProcess.participant)
    rw [List.map_map] at h
    have e : (TeardownEvent.release ∘ FleetProcess.participant)
        = fun i => TeardownEvent.release (.participant i) := rfl
    rw [e] at h
    rw [h]
    rfl
  refine ⟨rfl, hk, ?_, ?_⟩
  · rw [hk]
    simp
  · intro hi
    unfold transfer_test_teardown
    apply List.mem_append_right
    exact List.mem_map.mpr ⟨i, List.mem_range.mpr hi, rfl⟩

/-- C12 at the failing input: the fleet of the test (10 participants, both
drain tasks of the trust-delegate still running), left normally or through
`BOOST_FAIL` in iteration 3. On both paths the teardown kills the
trust-delegate and waits for its two drain tasks, and sends no kill to any of
the 10 participants. -/
theorem teardown_of_the_test_fleet :
    transfer_test_teardown test_process_count launched_server_info false .completed
        = [.kill .server, .wait .out_stream, .wait .err_stream, .release .server,
           .release (.participant 0), .release (.participant 1), .release (.participant 2),
           .release (.participant 3), .release (.participant 4), .release (.participant 5),
           .release (.participant 6), .release (.participant 7), .release (.participant 8),
           .release (.participant 9)]
      ∧ transfer_test_teardown test_process_count launched_server_info false
            (.convergence_failed 3)
          = transfer_test_teardown test_process_count launched_server_info false .completed
      ∧ killed_processes
            (transfer_test_teardown test_process_count launched_server_info false .completed)
          = [.server] := by
  decide

/-! ### Startup arguments -/

theorem classify_data_dir : classify "--data-dir" = .awaits_value "data-dir" := by decide

theorem classify_server : classify "--server" = .flag "server" := by decide

theorem classify_rpcuser :
    classify ("--rpcuser=" ++ RPC_USERNAME) = .valued "rpcuser" "test" := by decide

theorem classify_rpcpassword :
    classify ("--rpcpassword=" ++ RPC_PASSWORD) = .valued "rpcpassword" "test" := by decide

theorem classify_rpcport : classify "--rpcport" = .awaits_value "rpcport" := by decide

theorem classify_trustee_address :
    classify "--trustee-address" = .awaits_value "trustee-address" := by decide

theorem classify_trustee_private_key :
    classify "--trustee-private-key" = .awaits_value "trustee-private-key" := by decide

/-- The options that the parser of `main` finds in the list built by
`launch_bts_client_process`. -/
theorem parse_client_options {K A : Type} (ops : KeyOps K A) (config_directory : String)
    (process_number port : Nat) (trustee_key : K) (act_as_trustee : Bool) :
    parse_command_line
        (client_options ops config_directory process_number port trustee_key act_as_trustee)
      = some ([("data-dir",
                some (path_append config_directory (numbered_config_dir_name process_number))),
               ("server", none),
               ("rpcuser", some "test"),
               ("rpcpassword", some "test"),
               ("rpcport", some (Nat.repr port)),
               ("trustee-address", some (ops.address trustee_key))]
              ++ (if act_as_trustee then
                    [("trustee-private-key", some (ops.get_secret trustee_key))]
                  else [])) := by
  cases act_as_trustee <;>
    simp [parse_command_line, client_options, parse_tokens, classify_data_dir, classify_server,
      classify_rpcuser, classify_rpcpassword, classify_rpcport, classify_trustee_address,
      classify_trustee_private_key]

/-- C13. Every startup argument that the harness passes to a participant node
is consumed by the node program: the parser of `main` accepts the list built by
`launch_bts_client_process` and finds in it `data-dir`, `server`, `rpcuser`,
`rpcpassword`, `rpcport`, `trustee-address` and, for the trust-delegate's
stand-in, `trustee-private-key`; each of these names is declared in the option
table of `main`, and it comes with a value exactly when its declaration takes
one, `server` being the only one without. -/
theorem startup_arguments_are_declared {K A : Type} (ops : KeyOps K A)
    (config_directory : String) (process_number port : Nat) (trustee_key : K)
    (act_as_trustee : Bool) :
    ∃ parsed,
      parse_command_line
          (client_options ops config_directory process_number port trustee_key act_as_trustee)
        = some parsed
      ∧ parsed.map Prod.fst
        = ["data-dir", "server", "rpcuser", "rpcpassword", "rpcport", "trustee-address"]
            ++ (if act_as_trustee then ["trustee-private-key"] else [])
      ∧ (∀ name value, (name, value) ∈ parsed →
          declared name = some value.isSome ∧ (value = none ↔ name = "server")) := by
  refine ⟨_, parse_client_options ops config_directory process_number port trustee_key
    act_as_trustee, ?_, ?_⟩
  · cases act_as_trustee <;> rfl
  · intro name value hmem
    have hmem' : (name, value) ∈
        [("data-dir",
            some (path_append config_directory (numbered_config_dir_name process_number))),
          ("server", none),
          ("rpcuser", some "test"),
          ("rpcpassword", some "test"),
          ("rpcport", some (Nat.repr port)),
          ("trustee-address", some (ops.address trustee_key)),
          ("trustee-private-key", some (ops.get_secret trustee_key))] := by
      cases act_as_trustee
      · simp only [Bool.false_eq_true, if_false, List.append_nil] at hmem
        simp only [List.mem_cons] at hmem ⊢
        tauto
      · simpa using hmem
    simp only [List.mem_cons, Prod.mk.injEq, List.mem_singleton, List.not_mem_nil,
      or_false] at hmem'
    rcases hmem' with ⟨rfl, rfl⟩ | ⟨rfl, rfl⟩ | ⟨rfl, rfl⟩ | ⟨rfl, rfl⟩ | ⟨rfl, rfl⟩
      | ⟨rfl, rfl⟩ | ⟨rfl, rfl⟩ <;>
      exact ⟨by simp only [Option.isSome]; decide, by simp⟩

/-! ### The command line interface -/

/-- C14 at the failing input `unlock`. The help lists twelve commands, `unlock`
among them; eleven select a branch of their own in `process_command`, but
`unlock` falls through to the final `else`, which prints `Unknown command` and
the help, and asks for no password. -/
theorem unlock_is_listed_but_unknown :
    help_commands
        = ["help", "unlock", "listrecvaddresses", "getnewaddress", "sendtoaddress",
           "getbalance", "listtransactions", "rescan", "import_bitcoin_wallet",
           "import_private_key", "listunspent", "quit"]
      ∧ process_command_branch "unlock" = .unknown_command
      ∧ calls_check_unlock (process_command_branch "unlock") = false
      ∧ (∀ cmd ∈ help_commands, cmd ≠ "unlock" →
          process_command_branch cmd ≠ .unknown_command) := by
  decide

/-! ### Creating a wallet at login -/

/-- The key password loop, entered with `keypass2` empty or with the two
passwords equal and longer than 8, can only end with a key password that is
empty or longer than 8. -/
theorem key_password_loop_value :
    ∀ (fuel : Nat) (keypass1 keypass2 : String) (input : List String) (k : String)
      (rest : List String),
      (keypass2 = "" ∨ (keypass2 = keypass1 ∧ 8 < keypass1.utf8ByteSize)) →
      key_password_loop fuel keypass1 keypass2 input = .value k rest →
      k = "" ∨ 8 < k.utf8ByteSize := by
  intro fuel
  induction fuel with
  | zero => intro k1 k2 input k rest _ h; simp [key_password_loop] at h
  | succ f ih =>
    intro k1 k2 input k rest hinv h
    by_cases heq : k1 = k2
    · simp only [key_password_loop, heq, ne_eq, not_true_eq_false, if_false,
        Prompted.value.injEq] at h
      obtain ⟨rfl, _⟩ := h
      rcases hinv with h0 | ⟨_, hlong⟩
      · exact Or.inl h0
      · exact Or.inr (heq ▸ hlong)
    · by_cases hsize : k1.utf8ByteSize > 8
      · cases input with
        | nil => simp [key_password_loop, heq, hsize] at h
        | cons again input =>
          by_cases hagain : again = k1
          · simp only [key_password_loop, heq, hsize, hagain, ne_eq, not_false_eq_true,
              not_true_eq_false, if_true, if_false] at h
            exact ih k1 k1 input k rest (Or.inr ⟨rfl, hsize⟩) h
          · cases input with
            | nil => simp [key_password_loop, heq, hsize, hagain] at h
            | cons next input =>
              simp only [key_password_loop, heq, hsize, hagain, ne_eq, not_false_eq_true,
                if_true] at h
              exact ih next "" input k rest (Or.inl rfl) h
      · cases input with
        | nil => simp [key_password_loop, heq, hsize] at h
        | cons next input =>
          simp only [key_password_loop, heq, hsize, ne_eq, not_false_eq_true, if_true,
            if_false] at h
          exact ih next "" input k rest (Or.inl rfl) h

/-- With more fuel than lines to read, the wallet password loop does not run
out of fuel, and it hands on no more lines than it was given. -/
theorem wallet_password_loop_fuel :
    ∀ (fuel : Nat) (pass1 pass2 : String) (input : List String),
      input.length < fuel →
      wallet_password_loop fuel pass1 pass2 input ≠ .out_of_fuel
        ∧ ∀ p rest, wallet_password_loop fuel pass1 pass2 input = .value p rest →
            rest.length ≤ input.length := by
  intro fuel
  induction fuel with
  | zero => intro _ _ input h; omega
  | succ f ih =>
    intro p1 p2 input hlen
    by_cases heq : p1 = p2
    · simp only [wallet_password_loop, heq, ne_eq, not_true_eq_false, if_false]
      refine ⟨by simp, fun p rest h => ?_⟩
      simp only [Prompted.value.injEq] at h
      rw [← h.2]
    · cases input with
      | nil => simp [wallet_password_loop, heq]
      | cons again input =>
        simp only [List.length_cons] at hlen
        by_cases hagain : again = p1
        · simp only [wallet_password_loop, heq, hagain, ne_eq, not_false_eq_true,
            not_true_eq_false, if_true, if_false]
          obtain ⟨h1, h2⟩ := ih p1 p1 input (by omega)
          refine ⟨h1, fun p rest h => ?_⟩
          have := h2 p rest h
          simp only [List.length_cons]
          omega
        · cases input with
          | nil => simp [wallet_password_loop, heq, hagain]
          | cons next input =>
            simp only [List.length_cons] at hlen
            simp only [wallet_password_loop, heq, hagain, ne_eq, not_false_eq_true, if_true]
            obtain ⟨h1, h2⟩ := ih next "" input (by omega)
            refine ⟨h1, fun p rest h => ?_⟩
            have := h2 p rest h
            simp only [List.length_cons]
            omega

/-- With more fuel than lines to read, the key password loop does not run out
of fuel. -/
theorem key_password_loop_fuel :
    ∀ (fuel : Nat) (keypass1 keypass2 : String) (input : List String),
      input.length < fuel → key_password_loop fuel keypass1 keypass2 input ≠ .out_of_fuel := by
  intro fuel
  induction fuel with
  | zero => intro _ _ input h; omega
  | succ f ih =>
    intro k1 k2 input hlen
    by_cases heq : k1 = k2
    · simp [key_password_loop, heq]
    · by_cases hsize : k1.utf8ByteSize > 8
      · cases input with
        | nil => simp [key_password_loop, heq, hsize]
        | cons again input =>
          simp only [List.length_cons] at hlen
          by_cases hagain : again = k1
          · simp only [key_password_loop, heq, hsize, hagain, ne_eq, not_false_eq_true,
              not_true_eq_false, if_true, if_false]
            exact ih k1 k1 input (by omega)
          · cases input with
            | nil => simp [key_password_loop, heq, hsize, hagain]
            | cons next input =>
              simp only [List.length_cons] at hlen
              simp only [key_password_loop, heq, hsize, hagain, ne_eq, not_false_eq_true,
                if_true]
              exact ih next "" input (by omega)
      · cases input with
        | nil => simp [key_password_loop, heq, hsize]
        | cons next input =>
          simp only [List.length_cons] at hlen
          simp only [key_password_loop, heq, hsize, ne_eq, not_false_eq_true, if_true,
            if_false]
          exact ih next "" input (by omega)

/-- C15, as stated, fails. Typing two empty lines at the prompts of the `login`
command creates the wallet with an empty key password, of length 0; and a
refused short key password followed by an empty line does the same. -/
theorem key_password_length_counterexample :
    login_create_wallet 3 ["", ""] = .created "" ""
      ∧ login_create_wallet 5 ["pw", "pw", "short", ""] = .created "pw" ""
      ∧ ¬ (8 < ("" : String).utf8ByteSize) := by
  decide

/-- C15, amended. When the `login` command creates a new wallet, then for every
sequence of lines typed at the prompts the key password finally passed to
`wallet->create` is either empty or has a length (`size()`) greater than 8; and
the command does come to an end, with `wallet->create` or with the end of the
input, whenever the fuel exceeds the number of lines. -/
theorem key_password_empty_or_long (fuel : Nat) (input : List String) :
    (∀ password key_password,
        login_create_wallet fuel input = .created password key_password →
        key_password = "" ∨ 8 < key_password.utf8ByteSize)
      ∧ (input.length < fuel → login_create_wallet fuel input ≠ .out_of_fuel) := by
  constructor
  · intro password key_password h
    unfold login_create_wallet at h
    cases input with
    | nil => simp at h
    | cons pass1 input =>
      simp only at h
      cases hw : wallet_password_loop fuel pass1 "" input with
      | eof => simp [hw] at h
      | out_of_fuel => simp [hw] at h
      | value p rest =>
        simp only [hw] at h
        cases rest with
        | nil => simp at h
        | cons keypass1 rest =>
          simp only at h
          cases hk : key_password_loop fuel keypass1 "" rest with
          | eof => simp [hk] at h
          | out_of_fuel => simp [hk] at h
          | value k rest' =>
            simp only [hk, WalletCreation.created.injEq] at h
            rw [← h.2]
            exact key_password_loop_value fuel keypass1 "" rest k rest' (Or.inl rfl) hk
  · intro hlen
    unfold login_create_wallet
    cases input with
    | nil => simp
    | cons pass1 input =>
      simp only [List.length_cons] at hlen
      obtain ⟨hw1, hw2⟩ := wallet_password_loop_fuel fuel pass1 "" input (by omega)
      simp only
      cases hw : wallet_password_loop fuel pass1 "" input with
      | eof => simp
      | out_of_fuel => exact absurd hw hw1
      | value p rest =>
        have hrest := hw2 p rest hw
        cases rest with
        | nil => simp
        | cons keypass1 rest =>
          simp only [List.length_cons] at hrest
          have hk1 := key_password_loop_fuel fuel keypass1 "" rest (by omega)
          simp only
          cases hk : key_password_loop fuel keypass1 "" rest with
          | eof => simp
          | out_of_fuel => exact absurd hk hk1
          | value k rest' => simp

/-- C15, amended, at two inputs: a short key password is refused and the long
one typed twice after it is taken; and an empty line typed after a refusal is
taken as the (empty) key password. -/
theorem key_password_empty_or_long_witness :
    login_create_wallet 6 ["pw", "pw", "short", "longpassword", "longpassword"]
        = .created "pw" "longpassword"
      ∧ (("longpassword" : String) = "" ∨ 8 < ("longpassword" : String).utf8ByteSize)
      ∧ login_create_wallet 6 ["pw", "pw", "short", "longpassword", "longpassword"]
          ≠ .out_of_fuel :=
  ⟨by decide,
    (key_password_empty_or_long 6 ["pw", "pw", "short", "longpassword", "longpassword"]).1
      "pw" "longpassword" (by decide),
    (key_password_empty_or_long 6 ["pw", "pw", "short", "longpassword", "longpassword"]).2
      (by decide)⟩

/-! ### Confirming a transaction -/

theorem broadcasts_append (xs ys : List CliEffect) :
    broadcasts (xs ++ ys) = broadcasts xs + broadcasts ys := by
  induction xs with
  | nil => simp [broadcasts]
  | cons x xs ih =>
    cases x <;> simp [broadcasts, ih]
    omega

theorem broadcasts_check_unlock (is_locked : Bool) (password : String) (unlock_accepts : Bool) :
    broadcasts (check_unlock is_locked password unlock_accepts).2 = 0 := by
  cases is_locked <;> cases unlock_accepts <;> rfl

theorem broadcasts_confirm_and_broadcast (tx_info : String) (response : Char) :
    broadcasts (confirm_and_broadcast tx_info response) = if response = 'Y' then 1 else 0 := by
  unfold confirm_and_broadcast
  by_cases h : response = 'Y'
  · simp [h, broadcasts]
  · simp [h, broadcasts]

/-- C18. The function `confirm_and_broadcast` broadcasts the transaction if and
only if the response character read is exactly `Y`: for every other character
(`y` and `n` included) nothing is broadcast and `Transaction canceled.` is
reported; in every case broadcast is called at most once, also in the whole
`sendtoaddress` command, which broadcasts only on the response `Y`. -/
theorem broadcast_only_on_capital_y (tx_info : String) (response : Char) (is_locked : Bool)
    (password : String) (unlock_accepts : Bool) :
    (CliEffect.broadcast_transaction ∈ confirm_and_broadcast tx_info response
        ↔ response = 'Y')
      ∧ (response ≠ 'Y' →
          CliEffect.broadcast_transaction ∉ confirm_and_broadcast tx_info response
            ∧ CliEffect.print "Transaction canceled.\n"
                ∈ confirm_and_broadcast tx_info response)
      ∧ broadcasts (confirm_and_broadcast tx_info response) ≤ 1
      ∧ broadcasts (sendtoaddress is_locked password unlock_accepts tx_info response) ≤ 1
      ∧ (0 < broadcasts (sendtoaddress is_locked password unlock_accepts tx_info response) →
          response = 'Y') := by
  have hcount := broadcasts_confirm_and_broadcast tx_info response
  have hsend : broadcasts (sendtoaddress is_locked password unlock_accepts tx_info response)
      ≤ broadcasts (confirm_and_broadcast tx_info response) := by
    unfold sendtoaddress
    by_cases hu : (check_unlock is_locked password unlock_accepts).1 = true
    · simp only [hu, if_true, broadcasts_append, broadcasts_check_unlock]
      simp [broadcasts]
    · simp only [hu, Bool.false_eq_true, if_false, broadcasts_check_unlock]
      omega
  have hiff : CliEffect.broadcast_transaction ∈ confirm_and_broadcast tx_info response
      ↔ response = 'Y' := by
    unfold confirm_and_broadcast
    by_cases h : response = 'Y'
    · simp [h]
    · simp [h]
  refine ⟨hiff, fun hne => ⟨fun hmem => hne (hiff.mp hmem), ?_⟩, ?_, ?_, ?_⟩
  · unfold confirm_and_broadcast
    simp [hne]
  · rw [hcount]; split_ifs <;> omega
  · rw [hcount] at hsend; split_ifs at hsend <;> omega
  · intro hpos
    rw [hcount] at hsend
    by_contra hne
    rw [if_neg hne] at hsend
    omega

/-- C18 at the responses `y` and `n`: the transaction is not broadcast and the
cancellation is reported; and at `Y`: it is broadcast, once. -/
theorem broadcast_only_on_capital_y_witness :
    ('y' : Char) ≠ 'Y'
      ∧ (CliEffect.broadcast_transaction ∉ confirm_and_broadcast "tx" 'y'
          ∧ CliEffect.print "Transaction canceled.\n" ∈ confirm_and_broadcast "tx" 'y')
      ∧ ('n' : Char) ≠ 'Y'
      ∧ (CliEffect.broadcast_transaction ∉ confirm_and_broadcast "tx" 'n'
          ∧ CliEffect.print "Transaction canceled.\n" ∈ confirm_and_broadcast "tx" 'n')
      ∧ broadcasts (sendtoaddress true "key password" true "tx" 'Y') = 1 :=
  ⟨by decide,
    (broadcast_only_on_capital_y "tx" 'y' true "key password" true).2.1 (by decide),
    by decide,
    (broadcast_only_on_capital_y "tx" 'n' true "key password" true).2.1 (by decide),
    by decide⟩

/-! ### The node program -/

theorem main_setup_runs (env : MainEnvironment) (options : variables_map)
    (hrun : options.help = false) :
    main_setup env options
      = some { trustee := trusted_address options,
               run_trustee := run_trustee_key env options,
               rpc_server := created_rpc_server env options,
               p2p_mode := options.p2p } := by
  simp [main_setup, hrun]

/-- C16. Unless `--help` ends the program first, the address that `main` makes
the chain trust is the value of `--trustee-address` whenever that option is
given, and the built-in `43cgLS17F2uWJKKFbPoJnnoMSacj` exactly when it is not;
nothing else decides it: two runs that agree on `--trustee-address` trust the
same address, whatever their configuration files, their
`--trustee-private-key`, their `trustee.key` and their other options. -/
theorem trusted_address_from_option_or_default (env : MainEnvironment)
    (options : variables_map) (hrun : options.help = false) :
    ∃ setup, main_setup env options = some setup
      ∧ (∀ value, options.trustee_address = some value →
          setup.trustee = .given value ∧ setup.trustee.text = value)
      ∧ (setup.trustee = .built_in ↔ options.trustee_address = none)
      ∧ (options.trustee_address = none →
          setup.trustee.text = "43cgLS17F2uWJKKFbPoJnnoMSacj")
      ∧ (∀ (env' : MainEnvironment) (options' : variables_map),
          options'.help = false →
          options'.trustee_address = options.trustee_address →
          ∃ setup', main_setup env' options' = some setup'
            ∧ setup'.trustee = setup.trustee) := by
  refine ⟨_, main_setup_runs env options hrun, ?_, ?_, ?_, ?_⟩
  · intro value h
    simp [trusted_address, h, TrustedAddress.text]
  · show trusted_address options = .built_in ↔ _
    unfold trusted_address
    cases options.trustee_address <;> simp
  · intro h
    simp [trusted_address, h, TrustedAddress.text, default_trustee_address]
  · intro env' options' hrun' h
    refine ⟨_, main_setup_runs env' options' hrun', ?_⟩
    simp [trusted_address, h]

/-- C16 at the command line of participant 0 of the test, and at the same
command line without `--trustee-address` and without `--trustee-private-key`. -/
theorem trusted_address_from_option_or_default_witness :
    exampleOptions.help = false
      ∧ (main_setup exampleEnvironment exampleOptions).map (fun s => s.trustee.text)
          = some "a7"
      ∧ (main_setup exampleEnvironment
            { exampleOptions with trustee_address := none, trustee_private_key := none }).map
          (fun s => s.trustee.text) = some "43cgLS17F2uWJKKFbPoJnnoMSacj"
      ∧ ∃ setup, main_setup exampleEnvironment exampleOptions = some setup
          ∧ (∀ value, exampleOptions.trustee_address = some value →
              setup.trustee = .given value ∧ setup.trustee.text = value)
          ∧ (setup.trustee = .built_in ↔ exampleOptions.trustee_address = none)
          ∧ (exampleOptions.trustee_address = none →
              setup.trustee.text = "43cgLS17F2uWJKKFbPoJnnoMSacj")
          ∧ (∀ (env' : MainEnvironment) (options' : variables_map),
              options'.help = false →
              options'.trustee_address = exampleOptions.trustee_address →
              ∃ setup', main_setup env' options' = some setup'
                ∧ setup'.trustee = setup.trustee) :=
  ⟨by decide, by decide, by decide,
    trusted_address_from_option_or_default exampleEnvironment exampleOptions (by decide)⟩

/-- C17. The effective control-endpoint configuration of `main` starts from the
configuration file's `cfg.rpc`; each of `rpc_user`, `rpc_password` and
`rpc_endpoint` is the command-line value when the matching option (`--rpcuser`,
`--rpcpassword`, `--rpcport`) is present and keeps its configuration-file value
when it is absent; a given `--rpcport` yields the endpoint `127.0.0.1:port`; and
the RPC server is created exactly when `--server` is present and that
configuration is valid, and then with that configuration. -/
theorem effective_rpc_configuration (env : MainEnvironment) (options : variables_map)
    (hrun : options.help = false) :
    ∃ setup, main_setup env options = some setup
      ∧ (∀ user, options.rpcuser = some user →
          (effective_rpc_config env.cfg.rpc options).rpc_user = user)
      ∧ (options.rpcuser = none →
          (effective_rpc_config env.cfg.rpc options).rpc_user = env.cfg.rpc.rpc_user)
      ∧ (∀ password, options.rpcpassword = some password →
          (effective_rpc_config env.cfg.rpc options).rpc_password = password)
      ∧ (options.rpcpassword = none →
          (effective_rpc_config env.cfg.rpc options).rpc_password = env.cfg.rpc.rpc_password)
      ∧ (∀ port, options.rpcport = some port →
          (effective_rpc_config env.cfg.rpc options).rpc_endpoint = ⟨"127.0.0.1", port⟩)
      ∧ (options.rpcport = none →
          (effective_rpc_config env.cfg.rpc options).rpc_endpoint = env.cfg.rpc.rpc_endpoint)
      ∧ (setup.rpc_server.isSome = true ↔
          options.server = true
            ∧ env.is_valid (effective_rpc_config env.cfg.rpc options) = true)
      ∧ (∀ c, setup.rpc_server = some c → c = effective_rpc_config env.cfg.rpc options) := by
  refine ⟨_, main_setup_runs env options hrun, ?_, ?_, ?_, ?_, ?_, ?_, ?_, ?_⟩
  · intro user h
    unfold effective_rpc_config
    rw [h]
    cases options.rpcpassword <;> cases options.rpcport <;> rfl
  · intro h
    unfold effective_rpc_config
    rw [h]
    cases options.rpcpassword <;> cases options.rpcport <;> rfl
  · intro password h
    unfold effective_rpc_config
    rw [h]
    cases options.rpcuser <;> cases options.rpcport <;> rfl
  · intro h
    unfold effective_rpc_config
    rw [h]
    cases options.rpcuser <;> cases options.rpcport <;> rfl
  · intro port h
    unfold effective_rpc_config
    rw [h]
  · intro h
    unfold effective_rpc_config
    rw [h]
    cases options.rpcuser <;> cases options.rpcpassword <;> rfl
  · show (created_rpc_server env options).isSome = true ↔ _
    unfold created_rpc_server
    cases hs : options.server
    · simp
    · cases hv : env.is_valid (effective_rpc_config env.cfg.rpc options) <;> simp [hv]
  · intro c h
    change created_rpc_server env options = some c at h
    unfold created_rpc_server at h
    cases hs : options.server
    · simp [hs] at h
    · cases hv : env.is_valid (effective_rpc_config env.cfg.rpc options)
      · simp [hs, hv] at h
      · simp [hs, hv] at h
        exact h.symm

/-- C17 at the command line of participant 0 of the test over a default
configuration file: user, password and port come from the command line and
the server is created; without `--rpcuser` the empty user of the file stays
and, the configuration being invalid, no server is created. -/
theorem effective_rpc_configuration_witness :
    exampleOptions.help = false
      ∧ (main_setup exampleEnvironment exampleOptions).map (fun s => s.rpc_server)
          = some (some ⟨"test", "test", ⟨"127.0.0.1", 20100⟩⟩)
      ∧ effective_rpc_config exampleEnvironment.cfg.rpc { exampleOptions with rpcuser := none }
          = ⟨"", "test", ⟨"127.0.0.1", 20100⟩⟩
      ∧ (main_setup exampleEnvironment { exampleOptions with rpcuser := none }).map
          (fun s => s.rpc_server) = some none
      ∧ (effective_rpc_config exampleEnvironment.cfg.rpc exampleOptions).rpc_user = "test" :=
  ⟨by decide, by decide, by decide, by decide,
    (effective_rpc_configuration exampleEnvironment exampleOptions (by decide)).elim
      (fun _ h => h.2.1 "test" rfl)⟩

end BtsXtClientTests
